import Mathlib

/-!
Verification of the immersed-boundary core of ArtraCFD
(`src/Serial/immersed_boundary.c`) against its natural-language
specification.

The C source is shallowly embedded below.  Machine reals (`Real` in the C
code) are modelled by `ℚ`; the exact algebraic claims under study are about
the arithmetic structure of the code, not about floating-point rounding.
The flat node array `space->node` is modelled as a total function
`ℤ → Node`; the C code's linear index arithmetic (`IndexNode`) is kept, so
index wrap-around behaves as in the source.  External collaborators that are
not part of the repository snapshot (`commons.h`, `cfd_commons.c`,
`computational_geometry.c`) are modelled from the specification's §6
interface contracts and are marked `Modelled from the spec:` in their doc
comments.  The unbounded radius-expansion loop of
`InverseDistanceWeighting` is given an explicit fuel parameter; running out
of fuel (`none`) corresponds to the C loop failing to terminate.
-/

namespace ArtraCFD

/-- Modelled from the spec: the "none" sentinel used for face identifiers
and for exterior-node geometry identifiers (a negative sentinel distinct
from 0 and from all 1-based shape ids). -/
def NONE : ℤ := -1

/-- Modelled from the spec: index of the current (old) time level in the
per-node array of retained states. -/
def TO : ℕ := 0

/-- The `R = 2` member of the source's `IBM` enum: initial half-width of the
stencil search used for reconstruction. -/
def R : ℤ := 2

/-- A point in physical space (`RealVec` in the source). -/
structure Vec3 where
  x : ℚ
  y : ℚ
  z : ℚ
deriving DecidableEq

/-- A node-space coordinate triple (`IntVec` in the source);
`x`, `y`, `z` are the `i`, `j`, `k` grid indices. -/
structure Int3 where
  x : ℤ
  y : ℤ
  z : ℤ
deriving DecidableEq

/-- One grid node (`Node` in the source): geometry id `gid`, closest-face
id `fid`, interfacial layer `lid`, ghost layer `gst`, and the conservative
states `U` at the retained time levels. -/
structure Node where
  gid : ℤ
  fid : ℤ
  lid : ℤ
  gst : ℤ
  U : List (List ℚ)
deriving DecidableEq

/-- The flat node array `space->node`, indexed by the linear index. -/
abbrev Grid := ℤ → Node

/-- One solid body (`Polyhedron` in the source).  `state = 1` marks a
stationary body; `faceN = 0` marks an analytical sphere of radius `r`
centred at `O`; otherwise the body is a triangulated polyhedron.  `V` and
`W` are the translational and angular velocities at each time level, `cf`
the friction switch (positive selects no-slip), `T` the wall temperature
(negative selects adiabatic). -/
structure Polyhedron where
  state : ℤ
  O : Vec3
  r : ℚ
  faceN : ℤ
  boxMin : Vec3
  boxMax : Vec3
  V : ℕ → Vec3
  W : ℕ → Vec3
  cf : ℚ
  T : ℚ

/-- The grid partition metadata consumed read-only by this core
(`Partition` in the source): interior node ranges `ns[PIN]`, total extents
`n`, physical domain minimum, spacings `d` and reciprocal spacings `dd`,
halo width `ng`, ghost-layer count `gl`, the distance-ordered neighbour
offset template `path` with its layer separators `pathSep`, and the
small-length guard `tinyL`. -/
structure Partition where
  nsMin : Int3
  nsMax : Int3
  n : Int3
  domainMin : Vec3
  d : Vec3
  dd : Vec3
  ng : ℤ
  gl : ℕ
  pathSep : List ℤ
  path : List Int3
  tinyL : ℚ

/-- Flow model constants (`Model` in the source). -/
structure Model where
  gamma : ℚ
  gasR : ℚ

/-- Modelled from the spec: the external geometry collaborators of §6 that
are not part of the repository snapshot — `PointInPolyhedron`
(point-in-shape test returning the nearest bounding face id) and
`OrthogonalSpace` (orthogonal-basis construction from a normal vector). -/
structure Ext where
  pointInPolyhedron : Vec3 → Polyhedron → Bool × ℤ
  orthogonalSpace : Vec3 → Vec3 × Vec3

/-- Modelled from the spec: linear index from 3D node coordinates
(`IndexNode(k, j, i, jMax, iMax)` of `commons.h`). -/
def indexNode (k j i jMax iMax : ℤ) : ℤ :=
  (k * jMax + j) * iMax + i

/-- Modelled from the spec: node-coordinate-to-physical-point mapping
(`PointSpace` of `commons.h`). -/
def pointSpace (i : ℤ) (sMin dd1 : ℚ) (ng : ℤ) : ℚ :=
  sMin + (i - ng) * dd1

/-- Modelled from the spec: physical-point-to-node-coordinate mapping
(`NodeSpace` of `commons.h`). -/
def nodeSpace (s sMin dd1 : ℚ) (ng : ℤ) : ℤ :=
  ⌊(s - sMin) * dd1⌋ + ng

/-- Modelled from the spec: valid-range clamping of a node coordinate
(`ValidNodeSpace` of `commons.h`); the result lies in `[nMin, nMax - 1]`
whenever `nMin ≤ nMax - 1`. -/
def validNodeSpace (n0 nMin nMax : ℤ) : ℤ :=
  max nMin (min n0 (nMax - 1))

/-- Modelled from the spec: squared Euclidean distance (`Dist2`). -/
def dist2 (a b : Vec3) : ℚ :=
  (a.x - b.x) * (a.x - b.x) + (a.y - b.y) * (a.y - b.y) + (a.z - b.z) * (a.z - b.z)

/-- Modelled from the spec: dot product (`Dot`). -/
def dot (a b : Vec3) : ℚ :=
  a.x * b.x + a.y * b.y + a.z * b.z

/-- Modelled from the spec: cross product (`Cross`). -/
def cross (a b : Vec3) : Vec3 :=
  ⟨a.y * b.z - a.z * b.y, a.z * b.x - a.x * b.z, a.x * b.y - a.y * b.x⟩

/-- Modelled from the spec: `Normalize(DIMUo, weightSum, Uo)` divides every
entry of the accumulated state by the weight sum. -/
def normalizeVec (w : ℚ) (Uo : List ℚ) : List ℚ :=
  Uo.map fun u => u / w

/-- Modelled from the spec: `PrimitiveByConservative(gamma, gasR, U, Uo)` —
primitive state `(ρ, u, v, w, p, T)` from the conservative state. -/
def primitiveByConservative (gamma gasR : ℚ) (U : List ℚ) : List ℚ :=
  let rho := U.getD 0 0
  let u := U.getD 1 0 / rho
  let v := U.getD 2 0 / rho
  let w := U.getD 3 0 / rho
  let p := (gamma - 1) * (U.getD 4 0 - rho * (u * u + v * v + w * w) / 2)
  [rho, u, v, w, p, p / (rho * gasR)]

/-- Modelled from the spec: `ConservativeByPrimitive(gamma, Uo, U)` —
conservative state from the primitive state. -/
def conservativeByPrimitive (gamma : ℚ) (Uo : List ℚ) : List ℚ :=
  let rho := Uo.getD 0 0
  let u := Uo.getD 1 0
  let v := Uo.getD 2 0
  let w := Uo.getD 3 0
  let p := Uo.getD 4 0
  [rho, rho * u, rho * v, rho * w, p / (gamma - 1) + rho * (u * u + v * v + w * w) / 2]

/-- The linear index of an interior coordinate triple, exactly as every
sweep of the source computes it:
`IndexNode(k, j, i, part->n[Y], part->n[X])`. -/
def idxOf (part : Partition) (c : Int3) : ℤ :=
  indexNode c.z c.y c.x part.n.y part.n.x

/-- The physical point of a node coordinate, exactly as the source computes
`p[s] = PointSpace(·, part->domain[s][MIN], part->d[s], part->ng)`. -/
def pointOf (part : Partition) (c : Int3) : Vec3 :=
  ⟨pointSpace c.x part.domainMin.x part.d.x part.ng,
   pointSpace c.y part.domainMin.y part.d.y part.ng,
   pointSpace c.z part.domainMin.z part.d.z part.ng⟩

/-- The list `lo, lo+1, …, hi-1` of a half-open C loop range. -/
def intRange (lo hi : ℤ) : List ℤ :=
  (List.range (hi - lo).toNat).map fun t : ℕ => lo + (t : ℤ)

/-- Coordinate triples of a triple nested loop, in the source's
`k`-outer / `j` / `i`-inner order. -/
def tripleList (lz ly lx : List ℤ) : List Int3 :=
  lz.flatMap fun k => ly.flatMap fun j => lx.map fun i => ⟨i, j, k⟩

/-- The interior node coordinates swept by the classifier phases
(`part->ns[PIN][s][MIN] ≤ · < part->ns[PIN][s][MAX]`). -/
def interiorCoords (part : Partition) : List Int3 :=
  tripleList (intRange part.nsMin.z part.nsMax.z)
    (intRange part.nsMin.y part.nsMax.y)
    (intRange part.nsMin.x part.nsMax.x)

/-! ### `ApplyWeighting` and `InverseDistanceWeighting` -/

/-- `ApplyWeighting` (source lines 544–557): clamp the squared distance
below by `tiny`, take the reciprocal as the weight, accumulate the weighted
primitive state and the weight sum. -/
def ApplyWeighting (Uoh : List ℚ) (tiny weight : ℚ) (acc : ℚ × List ℚ) : ℚ × List ℚ :=
  let w0 := if weight < tiny then tiny else weight
  let w := 1 / w0
  (acc.1 + w, List.ofFn fun m : Fin 6 => acc.2.getD m 0 + Uoh.getD m 0 * w)

/-- Offsets `(ih, jh, kh)` of one cubic search pass of radius `r`, in the
source's `kh`-outer / `jh` / `ih`-inner order. -/
def cubeOffsets (r : ℤ) : List Int3 :=
  tripleList (intRange (-r) (r + 1)) (intRange (-r) (r + 1)) (intRange (-r) (r + 1))

/-- The donor-qualification filter of `InverseDistanceWeighting`
(source lines 515–530): legal linear index, matching geometry id, and
matching face id (normal donors, `gid = 0`) or ghost state (ghost
donors). -/
def idwQualifies (part : Partition) (g : Grid) (typ gid : ℤ) (nc off : Int3) : Bool :=
  let idx := indexNode (nc.z + off.z) (nc.y + off.y) (nc.x + off.x) part.n.y part.n.x
  let idxMax := part.n.x * part.n.y * part.n.z
  if idx < 0 ∨ idxMax ≤ idx then false
  else if (g idx).gid ≠ gid then false
  else if gid = 0 then (g idx).fid = typ else (g idx).gst = typ

/-- One candidate step of a cubic search pass: skip non-qualifying offsets,
otherwise tally the donor and accumulate via `ApplyWeighting` with the
squared distance to the donor point. -/
def idwStep (model : Model) (part : Partition) (g : Grid) (tn : ℕ) (nc : Int3) (p : Vec3)
    (typ gid : ℤ) (acc : ℕ × ℚ × List ℚ) (off : Int3) : ℕ × ℚ × List ℚ :=
  if idwQualifies part g typ gid nc off then
    let idx := indexNode (nc.z + off.z) (nc.y + off.y) (nc.x + off.x) part.n.y part.n.x
    let ph : Vec3 := ⟨pointSpace (nc.x + off.x) part.domainMin.x part.d.x part.ng,
                      pointSpace (nc.y + off.y) part.domainMin.y part.d.y part.ng,
                      pointSpace (nc.z + off.z) part.domainMin.z part.d.z part.ng⟩
    let Uoh := primitiveByConservative model.gamma model.gasR ((g idx).U.getD tn [])
    let r := ApplyWeighting Uoh part.tinyL (dist2 p ph) (acc.2.1, acc.2.2)
    (acc.1 + 1, r.1, r.2)
  else acc

/-- One full cubic pass of radius `r` over the symmetric offset cube. -/
def idwPass (model : Model) (part : Partition) (g : Grid) (tn : ℕ) (nc : Int3) (p : Vec3)
    (typ gid : ℤ) (r : ℤ) (acc : ℕ × ℚ × List ℚ) : ℕ × ℚ × List ℚ :=
  (cubeOffsets r).foldl (idwStep model part g tn nc p typ gid) acc

/-- The radius-expansion loop `for (r = h, tally = 0; 0 == tally; ++r)` of
`InverseDistanceWeighting`.  The C loop has no exit when no donor ever
qualifies; the `fuel` parameter makes that explicit — `none` means the loop
ran `fuel` passes without finding a donor (the C code would still be
looping). -/
def idwGo (model : Model) (part : Partition) (g : Grid) (tn : ℕ) (nc : Int3) (p : Vec3)
    (typ gid : ℤ) : ℕ → ℤ → ℕ × ℚ × List ℚ → Option (ℚ × List ℚ)
  | 0, _, _ => none
  | fuel + 1, r, acc =>
    if acc.1 ≠ 0 then some (acc.2.1, acc.2.2)
    else idwGo model part g tn nc p typ gid fuel (r + 1)
      (idwPass model part g tn nc p typ gid r acc)

/-- `InverseDistanceWeighting` (source lines 492–543): zero the
accumulators, then expand the cubic search from half-width `h` until a pass
tallies at least one qualifying donor; return the weight sum and the
accumulated weighted state. -/
def InverseDistanceWeighting (model : Model) (part : Partition) (g : Grid) (fuel tn : ℕ)
    (nc : Int3) (p : Vec3) (h typ gid : ℤ) : Option (ℚ × List ℚ) :=
  idwGo model part g tn nc p typ gid fuel h (0, 0, List.replicate 6 0)

/-! ### `FlowReconstruction` and `MethodOfImage` -/

/-- `FlowReconstruction` (source lines 437–491): pre-estimate the
image-point state by inverse distance weighting, enforce the velocity
boundary condition (no-slip wall velocity, or slip decomposition into
normal and tangential parts), the zero-normal-gradient pressure condition,
and the adiabatic or isothermal temperature condition at the boundary
point, then fold the boundary point into the image-point stencil and
normalize.  Returns `(UoO, UoI)`; `none` if the embedded stencil search ran
out of fuel. -/
def FlowReconstruction (ext : Ext) (model : Model) (part : Partition) (g : Grid)
    (fuel tn : ℕ) (nc : Int3) (p : Vec3) (h typ gid : ℤ) (poly : Polyhedron)
    (pO N : Vec3) : Option (List ℚ × List ℚ) :=
  match InverseDistanceWeighting model part g fuel tn nc p h typ gid with
  | none => none
  | some (weightSum, UoI) =>
    let weight := 1 / weightSum
    let rv : Vec3 := ⟨pO.x - poly.O.x, pO.y - poly.O.y, pO.z - poly.O.z⟩
    let Vw := cross (poly.W TO) rv
    let Vs : Vec3 := ⟨(poly.V TO).x + Vw.x, (poly.V TO).y + Vw.y, (poly.V TO).z + Vw.z⟩
    let UoO0 : List ℚ := List.replicate 6 0
    let UoO1 :=
      if 0 < poly.cf then
        ((UoO0.set 1 Vs.x).set 2 Vs.y).set 3 Vs.z
      else
        let VI : Vec3 := ⟨UoI.getD 1 0 * weight, UoI.getD 2 0 * weight, UoI.getD 3 0 * weight⟩
        let TaTb := ext.orthogonalSpace N
        let Ta := TaTb.1
        let Tb := TaTb.2
        let RHSx := dot Vs N
        let RHSy := dot VI Ta
        let RHSz := dot VI Tb
        ((UoO0.set 1 (N.x * RHSx + Ta.x * RHSy + Tb.x * RHSz)).set 2
            (N.y * RHSx + Ta.y * RHSy + Tb.y * RHSz)).set 3
            (N.z * RHSx + Ta.z * RHSy + Tb.z * RHSz)
    let UoO2 := UoO1.set 4 (UoI.getD 4 0 * weight)
    let UoO3 :=
      if poly.T < 0 then UoO2.set 5 (UoI.getD 5 0 * weight)
      else UoO2.set 5 poly.T
    let acc := ApplyWeighting UoO3 part.tinyL (dist2 p pO) (weightSum, UoI)
    some (UoO3, normalizeVec acc.1 acc.2)

/-- `MethodOfImage` (source lines 399–414): reflect each velocity component
linearly through the boundary point and copy pressure and temperature from
the image point into the ghost state. -/
def MethodOfImage (UoI UoO UoG : List ℚ) : List ℚ :=
  ((((UoG.set 1 (UoO.getD 1 0 + UoO.getD 1 0 - UoI.getD 1 0)).set 2
      (UoO.getD 2 0 + UoO.getD 2 0 - UoI.getD 2 0)).set 3
      (UoO.getD 3 0 + UoO.getD 3 0 - UoI.getD 3 0)).set 4
      (UoI.getD 4 0)).set 5
      (UoI.getD 5 0)

/-! ### Node classifier: reset, ownership and interfacial/ghost phases -/

/-- The reset treatment of one interior node
(`InitializeGeometryDomain`, source lines 80–111): clear everything for
unowned nodes, keep ownership but clear interfacial/ghost markers for
stationary-body nodes, and fully clear previously-interfacial nodes of
moving bodies. -/
def resetNode (geo : List Polyhedron) (defPoly : Polyhedron) (nd : Node) : Node :=
  if nd.gid ≤ 0 then { nd with gid := 0, lid := 0, gst := 0 }
  else
    let poly := geo.getD (nd.gid - 1).toNat defPoly
    if poly.state = 1 then { nd with lid := 0, gst := 0 }
    else if 0 < nd.lid then { nd with gid := 0, lid := 0, gst := 0 }
    else nd

/-- `InitializeGeometryDomain` (source lines 69–116): the reset sweep over
the interior region. -/
def InitializeGeometryDomain (geo : List Polyhedron) (defPoly : Polyhedron)
    (part : Partition) (g : Grid) : Grid :=
  (interiorCoords part).foldl
    (fun g1 c => Function.update g1 (idxOf part c) (resetNode geo defPoly (g1 (idxOf part c)))) g

/-- The clamped node-space bounding box of a body (source lines 160–163):
`box[s][MIN] = ValidNodeSpace(NodeSpace(poly->box[s][MIN]))` and
`box[s][MAX] = ValidNodeSpace(NodeSpace(poly->box[s][MAX])) + 1`. -/
def boxOf (part : Partition) (poly : Polyhedron) : Int3 × Int3 :=
  (⟨validNodeSpace (nodeSpace poly.boxMin.x part.domainMin.x part.dd.x part.ng) part.nsMin.x part.nsMax.x,
    validNodeSpace (nodeSpace poly.boxMin.y part.domainMin.y part.dd.y part.ng) part.nsMin.y part.nsMax.y,
    validNodeSpace (nodeSpace poly.boxMin.z part.domainMin.z part.dd.z part.ng) part.nsMin.z part.nsMax.z⟩,
   ⟨validNodeSpace (nodeSpace poly.boxMax.x part.domainMin.x part.dd.x part.ng) part.nsMin.x part.nsMax.x + 1,
    validNodeSpace (nodeSpace poly.boxMax.y part.domainMin.y part.dd.y part.ng) part.nsMin.y part.nsMax.y + 1,
    validNodeSpace (nodeSpace poly.boxMax.z part.domainMin.z part.dd.z part.ng) part.nsMin.z part.nsMax.z + 1⟩)

/-- The coordinates searched for one body: its clamped bounding box, in the
source's loop order. -/
def boxCoords (part : Partition) (poly : Polyhedron) : List Int3 :=
  tripleList (intRange (boxOf part poly).1.z (boxOf part poly).2.z)
    (intRange (boxOf part poly).1.y (boxOf part poly).2.y)
    (intRange (boxOf part poly).1.x (boxOf part poly).2.x)

/-- The per-node ownership test of `IdentifyGeometryNode`
(source lines 167–185): skip already-classified nodes; spheres use the
exact `r² ≥ dist²` test and record face id 0; triangulated bodies delegate
to the external point-in-polyhedron test which also returns the nearest
face id. -/
def claimNode (ext : Ext) (part : Partition) (nIdx : ℕ) (poly : Polyhedron)
    (g : Grid) (c : Int3) : Grid :=
  let idx := idxOf part c
  if (g idx).gid ≠ 0 then g
  else
    let p := pointOf part c
    if poly.faceN = 0 then
      if poly.r * poly.r ≥ dist2 poly.O p then
        Function.update g idx { g idx with gid := (nIdx : ℤ) + 1, fid := 0 }
      else g
    else
      let res := ext.pointInPolyhedron p poly
      if res.1 then Function.update g idx { g idx with gid := (nIdx : ℤ) + 1, fid := res.2 }
      else g

/-- The ownership sweep of one body: skipped entirely when the body is
stationary (source lines 156–158), otherwise the per-node test over the
clamped bounding box. -/
def sweepShape (ext : Ext) (part : Partition) (nIdx : ℕ) (poly : Polyhedron) (g : Grid) : Grid :=
  if poly.state = 1 then g
  else (boxCoords part poly).foldl (claimNode ext part nIdx poly) g

/-- `IdentifyGeometryNode` (source lines 138–191): the ownership phase over
all bodies, in list order. -/
def IdentifyGeometryNode (ext : Ext) (part : Partition) (geo : List Polyhedron) (g : Grid) : Grid :=
  geo.enum.foldl (fun g1 np => sweepShape ext part np.1 np.2 g1) g

/-- The inner loop `for (r = 1; r <= part->gl; ++r) if (part->pathSep[r] > n) return r`
of `InterfacialState`/`GhostState`: the smallest layer index whose offset
separator lies beyond position `n`, or 0 when the position is beyond every
layer. -/
def layerOf (part : Partition) (n : ℕ) : ℕ :=
  ((((List.range part.gl).map fun t => t + 1).find? fun r => (n : ℤ) < part.pathSep.getD r 0).getD 0)

/-- The shared search loop of `InterfacialState` (`wantEq = false`, looking
for a heterogeneous neighbour) and `GhostState` (`wantEq = true`, looking
for a neighbour whose geometry id equals the argument `gid`), over the
distance-ordered offset template: skip exterior (`NONE`) neighbours, and on
the first qualifying neighbour return its layer if it lies within one. -/
def stateScan (part : Partition) (g : Grid) (k j i gid : ℤ) (wantEq : Bool) : List ℕ → ℤ
  | [] => 0
  | n :: rest =>
    let off := part.path.getD n ⟨0, 0, 0⟩
    let ngid := (g (indexNode (k + off.z) (j + off.y) (i + off.x) part.n.y part.n.x)).gid
    if ngid = NONE then stateScan part g k j i gid wantEq rest
    else if (if wantEq then ngid = gid else ngid ≠ gid) then
      (if layerOf part n ≠ 0 then (layerOf part n : ℤ)
       else stateScan part g k j i gid wantEq rest)
    else stateScan part g k j i gid wantEq rest

/-- `InterfacialState` (source lines 276–298). -/
def InterfacialState (part : Partition) (g : Grid) (k j i gid : ℤ) : ℤ :=
  stateScan part g k j i gid false (List.range (part.pathSep.getD 0 0).toNat)

/-- `GhostState` (source lines 299–321). -/
def GhostState (part : Partition) (g : Grid) (k j i gid : ℤ) : ℤ :=
  stateScan part g k j i gid true (List.range (part.pathSep.getD 0 0).toNat)

/-- The newly-joined-node reconstruction of `IdentifyInterfacialNode`
(source lines 242–255): interpolate from normal donors (`gid = 0`,
`fid = NONE`) with initial half-width `R`, normalize, derive density from
pressure and temperature by the ideal-gas relation, store the conservative
state at the current time level and clear the face id to the sentinel.
When the embedded stencil search runs out of fuel (the C loop would not
terminate) the grid is returned unchanged. -/
def reconNewly (model : Model) (part : Partition) (g : Grid) (fuel : ℕ) (c : Int3) : Grid :=
  let idx := idxOf part c
  match InverseDistanceWeighting model part g fuel TO c (pointOf part c) R NONE 0 with
  | none => g
  | some (weightSum, Uo0) =>
    let Uo1 := normalizeVec weightSum Uo0
    let Uo2 := Uo1.set 0 (Uo1.getD 4 0 / (Uo1.getD 5 0 * model.gasR))
    Function.update g idx
      { g idx with
        U := (g idx).U.set TO (conservativeByPrimitive model.gamma Uo2),
        fid := NONE }

/-- The per-node body of `IdentifyInterfacialNode` (source lines 241–270):
reconstruct newly-joined nodes (`fid ≠ NONE` while `gid = 0`), skip unowned
nodes, otherwise redetermine the interfacial state and then the ghost state
of owned interfacial nodes. -/
def iinStep (model : Model) (part : Partition) (fuel : ℕ) (g : Grid) (c : Int3) : Grid :=
  let idx := idxOf part c
  let g1 := if (g idx).fid ≠ NONE ∧ (g idx).gid = 0 then reconNewly model part g fuel c else g
  if (g1 idx).gid = 0 then g1
  else
    let lid := InterfacialState part g1 c.z c.y c.x ((g1 idx).gid)
    let g2 := Function.update g1 idx { g1 idx with lid := lid, gst := 0 }
    if lid ≠ 0 ∧ (g2 idx).gid ≠ 0 then
      Function.update g2 idx { g2 idx with gst := GhostState part g2 c.z c.y c.x 0 }
    else g2

/-- `IdentifyInterfacialNode` (source lines 229–275): the interfacial/ghost
classification sweep over the interior region. -/
def IdentifyInterfacialNode (model : Model) (part : Partition) (fuel : ℕ) (g : Grid) : Grid :=
  (interiorCoords part).foldl (iinStep model part fuel) g

/-- `ComputeGeometryDomain` (source lines 62–68): reset, ownership, then
interfacial/ghost classification. -/
def ComputeGeometryDomain (ext : Ext) (model : Model) (part : Partition)
    (geo : List Polyhedron) (defPoly : Polyhedron) (fuel : ℕ) (g : Grid) : Grid :=
  IdentifyInterfacialNode model part fuel
    (IdentifyGeometryNode ext part geo
      (InitializeGeometryDomain geo defPoly part g))

/-! ### Specification-side definitions used to settle the claims -/

/-- The qualifying condition tested at position `n` of the offset template
by the shared search loop: the neighbour is not exterior, and its geometry
id relates to `gid` as requested. -/
def scanCond (part : Partition) (g : Grid) (k j i gid : ℤ) (wantEq : Bool) (n : ℕ) : Bool :=
  let off := part.path.getD n ⟨0, 0, 0⟩
  let ngid := (g (indexNode (k + off.z) (j + off.y) (i + off.x) part.n.y part.n.x)).gid
  decide (ngid ≠ NONE ∧ (if wantEq then ngid = gid else ngid ≠ gid))

/-- Claim C2's amended reading of the ghost classification: the layer of
the nearest valid unowned (`gid = 0`) neighbour on the offset template, or
0 when there is none (or it lies beyond every layer). -/
def ghostSpec (part : Partition) (g : Grid) (c : Int3) : ℤ :=
  match (List.range (part.pathSep.getD 0 0).toNat).find?
      (scanCond part g c.z c.y c.x 0 true) with
  | none => 0
  | some n => (layerOf part n : ℤ)

/-- Claim C2 as frozen, following the claim's words: the layer of the
nearest valid same-owner neighbour (a neighbour whose geometry id equals
the node's own geometry id), or 0 when there is none. -/
def ghostSpecSameOwner (part : Partition) (g : Grid) (c : Int3) (ownGid : ℤ) : ℤ :=
  match (List.range (part.pathSep.getD 0 0).toNat).find?
      (scanCond part g c.z c.y c.x ownGid true) with
  | none => 0
  | some n => (layerOf part n : ℤ)

/-- Claim C5's hypothesis: no node of the grid carries the geometry id
requested from the stencil search, so no candidate can ever qualify. -/
def noDonorAnywhere (g : Grid) (gid : ℤ) : Prop :=
  ∀ idx : ℤ, (g idx).gid ≠ gid

/-- The donor weight of claim C7: the reciprocal of the squared distance
clamped below by `tiny`. -/
def donorWeight (tiny d2 : ℚ) : ℚ :=
  1 / max tiny d2

/-- The donors qualifying in the cubic pass of radius `r`. -/
def idwDonors (part : Partition) (g : Grid) (typ gid : ℤ) (nc : Int3) (r : ℤ) : List Int3 :=
  (cubeOffsets r).filter fun off => idwQualifies part g typ gid nc off

/-- The squared distance from the interpolated point to a donor's point. -/
def donorDist2 (part : Partition) (nc : Int3) (p : Vec3) (off : Int3) : ℚ :=
  dist2 p ⟨pointSpace (nc.x + off.x) part.domainMin.x part.d.x part.ng,
           pointSpace (nc.y + off.y) part.domainMin.y part.d.y part.ng,
           pointSpace (nc.z + off.z) part.domainMin.z part.d.z part.ng⟩

/-- A donor's primitive state, converted from its stored conservative
state at time level `tn`. -/
def donorPrim (model : Model) (part : Partition) (g : Grid) (tn : ℕ) (nc off : Int3) : List ℚ :=
  primitiveByConservative model.gamma model.gasR
    ((g (indexNode (nc.z + off.z) (nc.y + off.y) (nc.x + off.x) part.n.y part.n.x)).U.getD tn [])

/-- The accumulation step applied for each qualifying donor (the
`++tally; ApplyWeighting(...)` body of the search loop). -/
def idwApply (model : Model) (part : Partition) (g : Grid) (tn : ℕ) (nc : Int3) (p : Vec3)
    (acc : ℕ × ℚ × List ℚ) (off : Int3) : ℕ × ℚ × List ℚ :=
  (acc.1 + 1,
   ApplyWeighting (donorPrim model part g tn nc off) part.tinyL (donorDist2 part nc p off) acc.2)

/-- Claim C9's point-in-shape test of one body at one node, exactly as the
ownership sweep performs it (source lines 171–180): the exact
squared-distance test for analytical spheres, the external
point-in-polyhedron collaborator for triangulated bodies. -/
def insideShape (ext : Ext) (part : Partition) (poly : Polyhedron) (c : Int3) : Bool :=
  if poly.faceN = 0 then decide (poly.r * poly.r ≥ dist2 poly.O (pointOf part c))
  else (ext.pointInPolyhedron (pointOf part c) poly).1

/-- Claim C9: a body claims a node when the node lies in the body's clamped
search box and passes the point-in-shape test. -/
def claimsNode (ext : Ext) (part : Partition) (poly : Polyhedron) (c : Int3) : Bool :=
  decide (c ∈ boxCoords part poly) && insideShape ext part poly c

/-- Claim C9: the 1-based id of the first (lowest-indexed) non-stationary
body that claims the node, or 0 when no body does. -/
def firstClaim (ext : Ext) (part : Partition) (geo : List Polyhedron) (c : Int3) : ℤ :=
  match geo.enum.find? (fun np => decide (np.2.state ≠ 1) && claimsNode ext part np.2 c) with
  | none => 0
  | some np => (np.1 : ℤ) + 1

/-- The basic well-formedness of the partition metadata used throughout:
the interior region is a nonempty box inside the total extents. -/
def PartValid (part : Partition) : Prop :=
  0 ≤ part.nsMin.x ∧ part.nsMin.x < part.nsMax.x ∧ part.nsMax.x ≤ part.n.x ∧
  0 ≤ part.nsMin.y ∧ part.nsMin.y < part.nsMax.y ∧ part.nsMax.y ≤ part.n.y ∧
  0 ≤ part.nsMin.z ∧ part.nsMin.z < part.nsMax.z ∧ part.nsMax.z ≤ part.n.z ∧
  0 < part.n.x ∧ 0 < part.n.y ∧ 0 < part.n.z

instance (part : Partition) : Decidable (PartValid part) := by
  unfold PartValid
  infer_instance

/-! ### Concrete configurations used by witnesses and counterexamples -/

/-- An empty fluid node. -/
def nodeZero : Node := ⟨0, NONE, 0, 0, []⟩

/-- Trivial instantiation of the external collaborators. -/
def extTrivial : Ext := ⟨fun _ _ => (false, 0), fun _ => (⟨0, 0, 0⟩, ⟨0, 0, 0⟩)⟩

/-- A concrete flow model: `gamma = 2`, `gasR = 1`. -/
def modelTwoOne : Model := ⟨2, 1⟩

/-- A stationary unit sphere at the origin with wall temperature 350. -/
def polyStationarySphere : Polyhedron :=
  ⟨1, ⟨0, 0, 0⟩, 1, 0, ⟨-1, -1, -1⟩, ⟨1, 1, 1⟩, fun _ => ⟨0, 0, 0⟩, fun _ => ⟨0, 0, 0⟩, 1, 350⟩

/-- A moving (non-stationary) unit sphere at the origin, no-slip
(`cf = 1 > 0`), isothermal wall at 350. -/
def polyMovingSphere : Polyhedron :=
  ⟨0, ⟨0, 0, 0⟩, 1, 0, ⟨-1, -1, -1⟩, ⟨1, 1, 1⟩, fun _ => ⟨0, 0, 0⟩, fun _ => ⟨0, 0, 0⟩, 1, 350⟩

/-- A 1-D partition: 4 nodes along x, interior `i ∈ [1, 3)`, unit spacing,
no ghost layers, empty offset template. -/
def partLine : Partition :=
  ⟨⟨1, 0, 0⟩, ⟨3, 1, 1⟩, ⟨4, 1, 1⟩, ⟨0, 0, 0⟩, ⟨1, 1, 1⟩, ⟨1, 1, 1⟩, 0, 0, [0], [], 1 / 1000⟩

/-- The 1-D partition of `partLine` with one ghost layer and a two-entry
offset template `(+x, -x)` whose single layer covers both offsets. -/
def partLayers : Partition :=
  ⟨⟨1, 0, 0⟩, ⟨3, 1, 1⟩, ⟨4, 1, 1⟩, ⟨0, 0, 0⟩, ⟨1, 1, 1⟩, ⟨1, 1, 1⟩, 0, 1, [2, 2],
   [⟨1, 0, 0⟩, ⟨-1, 0, 0⟩], 1 / 1000⟩

/-- A single-node partition (1×1×1 grid, the node being interior). -/
def partUnit : Partition :=
  ⟨⟨0, 0, 0⟩, ⟨1, 1, 1⟩, ⟨1, 1, 1⟩, ⟨0, 0, 0⟩, ⟨1, 1, 1⟩, ⟨1, 1, 1⟩, 0, 0, [0], [], 1 / 1000⟩

/-- C2's counterexample grid on `partLayers`: node 1 and the exterior node
0 owned by shape 1, node 2 owned by shape 2, no unowned neighbour on the
offset template of node 1. -/
def gridC2 : Grid := fun idx =>
  if idx = 0 then ⟨1, 0, 0, 0, []⟩
  else if idx = 1 then ⟨1, 0, 0, 0, []⟩
  else if idx = 2 then ⟨2, 0, 0, 0, []⟩
  else nodeZero

/-- C3's counterexample grid on `partLine`: interior node 1 is unowned but
carries the stale face id 5 (the code's newly-exposed trigger); interior
node 2 is unowned with the `NONE` face id (the claim's trigger) and a
one-slot flow state; every other node is an unowned normal node with the
`NONE` face id. -/
def gridC3 : Grid := fun idx =>
  if idx = 1 then ⟨0, 5, 0, 0, []⟩
  else if idx = 2 then ⟨0, NONE, 0, 0, [[]]⟩
  else nodeZero

/-- C5's witness grid: every node is owned by shape 5, so a stencil search
for normal donors (`gid = 0`) can never qualify any candidate. -/
def gridC5 : Grid := fun _ => ⟨5, 0, 0, 0, []⟩

/-- C6/C7's witness grid on `partLine`: a single qualifying normal donor at
node 2 with conservative state `(1, 0, 0, 0, 1)`; nodes 0 and 1 fail the
donor filter. -/
def gridC6 : Grid := fun idx =>
  if idx = 0 then ⟨5, 0, 0, 0, []⟩
  else if idx = 1 then ⟨0, 5, 0, 0, []⟩
  else if idx = 2 then ⟨0, NONE, 0, 0, [[1, 0, 0, 0, 1]]⟩
  else ⟨3, 0, 0, 0, []⟩

/-- An all-fluid grid. -/
def gridZero : Grid := fun _ => nodeZero

/-- C8's witness grid on `partUnit`: the single interior node is owned by
the (stationary) shape 1 and is not interfacial. -/
def gridC8 : Grid := fun idx =>
  if idx = 0 then ⟨1, 0, 0, 0, [[1, 0, 0, 0, 1]]⟩ else nodeZero

end ArtraCFD

namespace ArtraCFD

/-! ## General helper lemmas -/

theorem getD_set_self (l : List ℚ) (i : ℕ) (v : ℚ) (h : i < l.length) :
    (l.set i v).getD i 0 = v := by
  simp [List.getD_eq_getElem?_getD, List.getElem?_set_self, h]

theorem getD_ofFn6 (f : Fin 6 → ℚ) (m : Fin 6) :
    (List.ofFn f).getD (m : ℕ) 0 = f m := by
  fin_cases m <;> rfl

theorem getD_replicate6 (m : Fin 6) : (List.replicate 6 (0 : ℚ)).getD (m : ℕ) 0 = 0 := by
  fin_cases m <;> rfl

/-! ## Claim C1: MethodOfImage -/

/-- C1.  For all image-point and boundary-point primitive states,
`MethodOfImage` produces a ghost state whose velocity components are the
linear reflection `2 * boundary - image` (equivalently
`ghost + image = 2 * boundary`, exactly, per component), and whose
pressure and temperature entries are copied unchanged from the image
state. -/
theorem c1_method_of_image (i0 i1 i2 i3 i4 i5 o0 o1 o2 o3 o4 o5 g0 g1 g2 g3 g4 g5 : ℚ) :
    MethodOfImage [i0, i1, i2, i3, i4, i5] [o0, o1, o2, o3, o4, o5] [g0, g1, g2, g3, g4, g5]
        = [g0, o1 + o1 - i1, o2 + o2 - i2, o3 + o3 - i3, i4, i5] ∧
      (o1 + o1 - i1) + i1 = 2 * o1 ∧
      (o2 + o2 - i2) + i2 = 2 * o2 ∧
      (o3 + o3 - i3) + i3 = 2 * o3 :=
  ⟨rfl, by ring, by ring, by ring⟩

/-! ## Claim C5: the stencil search has no exit when no donor qualifies -/

theorem idwQualifies_false_of_noDonor (part : Partition) (g : Grid) (typ gid : ℤ)
    (nc off : Int3) (hnd : noDonorAnywhere g gid) :
    idwQualifies part g typ gid nc off = false := by
  have hB := hnd (indexNode (nc.z + off.z) (nc.y + off.y) (nc.x + off.x) part.n.y part.n.x)
  simp [idwQualifies, hB]

theorem idwStep_of_noDonor (model : Model) (part : Partition) (g : Grid) (tn : ℕ)
    (nc : Int3) (p : Vec3) (typ gid : ℤ) (hnd : noDonorAnywhere g gid)
    (acc : ℕ × ℚ × List ℚ) (off : Int3) :
    idwStep model part g tn nc p typ gid acc off = acc := by
  unfold idwStep
  rw [idwQualifies_false_of_noDonor part g typ gid nc off hnd]
  simp

theorem idwPass_of_noDonor (model : Model) (part : Partition) (g : Grid) (tn : ℕ)
    (nc : Int3) (p : Vec3) (typ gid : ℤ) (r : ℤ) (hnd : noDonorAnywhere g gid)
    (acc : ℕ × ℚ × List ℚ) :
    idwPass model part g tn nc p typ gid r acc = acc := by
  unfold idwPass
  induction cubeOffsets r generalizing acc with
  | nil => rfl
  | cons o t ih =>
    rw [List.foldl_cons, idwStep_of_noDonor model part g tn nc p typ gid hnd acc o]
    exact ih acc

/-- C5.  When no node of the grid can satisfy the donor filter, the
radius-expansion loop of `InverseDistanceWeighting` never produces a
result: for every amount of fuel the embedded loop is still running
(`none`).  The C code (source line 511) accordingly loops forever in this
situation instead of surfacing the recoverable configuration error the
specification requires. -/
theorem c5_idw_never_terminates (model : Model) (part : Partition) (g : Grid)
    (tn : ℕ) (nc : Int3) (p : Vec3) (h typ gid : ℤ)
    (hnd : noDonorAnywhere g gid) :
    ∀ fuel : ℕ, InverseDistanceWeighting model part g fuel tn nc p h typ gid = none := by
  intro fuel
  unfold InverseDistanceWeighting
  suffices H : ∀ f : ℕ, ∀ r : ℤ,
      idwGo model part g tn nc p typ gid f r (0, 0, List.replicate 6 0) = none from H fuel h
  intro f
  induction f with
  | zero => intro r; rfl
  | succ m ih =>
    intro r
    unfold idwGo
    rw [idwPass_of_noDonor model part g tn nc p typ gid r hnd]
    simpa using ih (r + 1)

/-- Witness for C5 at a concrete input: on `gridC5` nothing matches the
requested donor id 0, and three loop passes have produced nothing. -/
theorem c5_idw_never_terminates_witness :
    noDonorAnywhere gridC5 0 ∧
    InverseDistanceWeighting modelTwoOne partLine gridC5 3 0 ⟨1, 0, 0⟩ ⟨1, 0, 0⟩ 2 NONE 0 = none :=
  ⟨fun _ => by norm_num [gridC5],
   c5_idw_never_terminates modelTwoOne partLine gridC5 0 ⟨1, 0, 0⟩ ⟨1, 0, 0⟩ 2 NONE 0
     (fun _ => by norm_num [gridC5]) 3⟩

/-! ## Claim C6: temperature boundary condition in FlowReconstruction -/

/-- C6.  Whenever `FlowReconstruction` produces a result, the boundary-point
temperature it outputs is exactly the shape's wall temperature whenever that
value is non-negative — independent of the interpolated image-point state —
and is the normalized image-point temperature (pre-estimate divided by the
pre-estimate's weight sum) when the wall-temperature value is negative
(adiabatic). -/
theorem c6_flow_reconstruction_temperature (ext : Ext) (model : Model) (part : Partition)
    (g : Grid) (fuel tn : ℕ) (nc : Int3) (p : Vec3) (h typ gid : ℤ) (poly : Polyhedron)
    (pO N : Vec3) :
    (FlowReconstruction ext model part g fuel tn nc p h typ gid poly pO N).map
        (fun pr => pr.1.getD 5 0) =
      (InverseDistanceWeighting model part g fuel tn nc p h typ gid).map
        (fun pre => if poly.T < 0 then pre.2.getD 5 0 * (1 / pre.1) else poly.T) := by
  unfold FlowReconstruction
  cases hidw : InverseDistanceWeighting model part g fuel tn nc p h typ gid with
  | none => rfl
  | some pre =>
    obtain ⟨ws, UoI⟩ := pre
    refine congrArg some ?_
    by_cases hT : poly.T < 0
    · simp only [if_pos hT]
      split
      · rfl
      · rfl
    · simp only [if_neg hT]
      split
      · rfl
      · rfl

/-! ## Claim C7: donor weights and convex combination -/

theorem clamp_eq_max (tiny w : ℚ) : (if w < tiny then tiny else w) = max tiny w := by
  rcases lt_or_le w tiny with hlt | hle
  · simp [hlt, max_eq_left hlt.le]
  · simp [not_lt.mpr hle, max_eq_right hle]

theorem ApplyWeighting_eq (Uoh : List ℚ) (tiny w : ℚ) (acc : ℚ × List ℚ) :
    ApplyWeighting Uoh tiny w acc =
      (acc.1 + donorWeight tiny w,
       List.ofFn fun m : Fin 6 => acc.2.getD m 0 + Uoh.getD m 0 * donorWeight tiny w) := by
  simp [ApplyWeighting, donorWeight, clamp_eq_max]

theorem foldl_idwStep_eq_filter (model : Model) (part : Partition) (g : Grid) (tn : ℕ)
    (nc : Int3) (p : Vec3) (typ gid : ℤ) (l : List Int3) :
    ∀ acc : ℕ × ℚ × List ℚ,
      l.foldl (idwStep model part g tn nc p typ gid) acc
        = (l.filter fun off => idwQualifies part g typ gid nc off).foldl
            (idwApply model part g tn nc p) acc := by
  induction l with
  | nil => intro acc; rfl
  | cons o t ih =>
    intro acc
    rw [List.foldl_cons, List.filter_cons]
    cases hq : idwQualifies part g typ gid nc o with
    | true =>
      have hstep : idwStep model part g tn nc p typ gid acc o
          = idwApply model part g tn nc p acc o := by
        simp [idwStep, idwApply, hq, donorPrim, donorDist2]
      rw [hstep, if_pos rfl, List.foldl_cons]
      exact ih _
    | false =>
      have hstep : idwStep model part g tn nc p typ gid acc o = acc := by
        simp [idwStep, hq]
      rw [hstep, if_neg (by simp)]
      exact ih _

theorem foldl_idwApply_char (model : Model) (part : Partition) (g : Grid) (tn : ℕ)
    (nc : Int3) (p : Vec3) (D : List Int3) :
    ∀ acc : ℕ × ℚ × List ℚ,
      (D.foldl (idwApply model part g tn nc p) acc).1 = acc.1 + D.length ∧
      (D.foldl (idwApply model part g tn nc p) acc).2.1
        = acc.2.1 + (D.map fun off => donorWeight part.tinyL (donorDist2 part nc p off)).sum ∧
      ∀ m : Fin 6,
        (D.foldl (idwApply model part g tn nc p) acc).2.2.getD (m : ℕ) 0
          = acc.2.2.getD (m : ℕ) 0 + (D.map fun off =>
              donorWeight part.tinyL (donorDist2 part nc p off) *
                (donorPrim model part g tn nc off).getD (m : ℕ) 0).sum := by
  induction D with
  | nil => intro acc; exact ⟨by simp, by simp, fun m => by simp⟩
  | cons o t ih =>
    intro acc
    rw [List.foldl_cons]
    obtain ⟨h1, h2, h3⟩ := ih (idwApply model part g tn nc p acc o)
    refine ⟨?_, ?_, fun m => ?_⟩
    · rw [h1]
      simp [idwApply]
      omega
    · rw [h2]
      simp [idwApply, ApplyWeighting_eq]
      ring
    · rw [h3 m]
      simp only [idwApply, ApplyWeighting_eq, List.map_cons, List.sum_cons]
      rw [getD_ofFn6]
      ring

theorem idwGo_some_char (model : Model) (part : Partition) (g : Grid) (tn : ℕ)
    (nc : Int3) (p : Vec3) (typ gid : ℤ) :
    ∀ (fuel : ℕ) (r0 : ℤ) (pr : ℚ × List ℚ),
      idwGo model part g tn nc p typ gid fuel r0 (0, 0, List.replicate 6 0) = some pr →
      ∃ r : ℤ, r0 ≤ r ∧ idwDonors part g typ gid nc r ≠ [] ∧
        pr.1 = ((idwDonors part g typ gid nc r).map fun off =>
          donorWeight part.tinyL (donorDist2 part nc p off)).sum ∧
        ∀ m : Fin 6, pr.2.getD (m : ℕ) 0 = ((idwDonors part g typ gid nc r).map fun off =>
          donorWeight part.tinyL (donorDist2 part nc p off) *
            (donorPrim model part g tn nc off).getD (m : ℕ) 0).sum := by
  intro fuel
  induction fuel with
  | zero => intro r0 pr hsome; exact absurd hsome (by simp [idwGo])
  | succ m ih =>
    intro r0 pr hsome
    have hstep : idwGo model part g tn nc p typ gid (m + 1) r0 (0, 0, List.replicate 6 0)
        = idwGo model part g tn nc p typ gid m (r0 + 1)
            (idwPass model part g tn nc p typ gid r0 (0, 0, List.replicate 6 0)) := by
      simp [idwGo]
    rw [hstep] at hsome
    have hpass : idwPass model part g tn nc p typ gid r0 (0, 0, List.replicate 6 0)
        = (idwDonors part g typ gid nc r0).foldl (idwApply model part g tn nc p)
            (0, 0, List.replicate 6 0) := by
      rw [idwPass, foldl_idwStep_eq_filter]
      rfl
    by_cases hDnil : idwDonors part g typ gid nc r0 = []
    · rw [hpass, hDnil] at hsome
      simp only [List.foldl_nil] at hsome
      obtain ⟨r, hr, hrest⟩ := ih (r0 + 1) pr hsome
      exact ⟨r, by omega, hrest⟩
    · obtain ⟨h1, h2, h3⟩ :=
        foldl_idwApply_char model part g tn nc p (idwDonors part g typ gid nc r0)
          (0, 0, List.replicate 6 0)
      have htally : ((idwDonors part g typ gid nc r0).foldl (idwApply model part g tn nc p)
          (0, 0, List.replicate 6 0)).1 ≠ 0 := by
        rw [h1]
        simpa [List.length_eq_zero] using hDnil
      cases m with
      | zero =>
        rw [hpass] at hsome
        exact absurd hsome (by simp [idwGo])
      | succ m2 =>
        rw [hpass] at hsome
        have hunf : idwGo model part g tn nc p typ gid (m2 + 1) (r0 + 1)
            ((idwDonors part g typ gid nc r0).foldl (idwApply model part g tn nc p)
              (0, 0, List.replicate 6 0))
          = if ((idwDonors part g typ gid nc r0).foldl (idwApply model part g tn nc p)
                (0, 0, List.replicate 6 0)).1 ≠ 0 then
              some (((idwDonors part g typ gid nc r0).foldl (idwApply model part g tn nc p)
                (0, 0, List.replicate 6 0)).2.1,
                ((idwDonors part g typ gid nc r0).foldl (idwApply model part g tn nc p)
                (0, 0, List.replicate 6 0)).2.2)
            else idwGo model part g tn nc p typ gid m2 (r0 + 1 + 1)
              (idwPass model part g tn nc p typ gid (r0 + 1)
                ((idwDonors part g typ gid nc r0).foldl (idwApply model part g tn nc p)
                  (0, 0, List.replicate 6 0))) := rfl
        rw [hunf, if_pos htally] at hsome
        obtain rfl : pr = _ := (Option.some_inj.mp hsome).symm
        refine ⟨r0, le_refl _, hDnil, ?_, fun m3 => ?_⟩
        · rw [h2]
          simp
        · rw [h3 m3, getD_replicate6]
          simp

/-- C7.  Every terminating stencil search returns the accumulation over the
qualifying donors of its final pass: each donor's weight is
`1 / max(tiny, dist²)` and is strictly positive, the returned weight sum is
the sum of those weights, and the accumulated state divided by the weight
sum is a convex combination of the donor primitive states (normalized
weights positive and summing to 1). -/
theorem c7_idw_convex_combination (model : Model) (part : Partition) (g : Grid)
    (fuel tn : ℕ) (nc : Int3) (p : Vec3) (h typ gid : ℤ)
    (htiny : 0 < part.tinyL)
    (hidw : (InverseDistanceWeighting model part g fuel tn nc p h typ gid).isSome = true) :
    ∃ (r : ℤ) (ws : ℚ) (Uo : List ℚ),
      InverseDistanceWeighting model part g fuel tn nc p h typ gid = some (ws, Uo) ∧
      h ≤ r ∧ idwDonors part g typ gid nc r ≠ [] ∧
      ws = ((idwDonors part g typ gid nc r).map fun off =>
        donorWeight part.tinyL (donorDist2 part nc p off)).sum ∧
      (∀ m : Fin 6, Uo.getD (m : ℕ) 0 = ((idwDonors part g typ gid nc r).map fun off =>
        donorWeight part.tinyL (donorDist2 part nc p off) *
          (donorPrim model part g tn nc off).getD (m : ℕ) 0).sum) ∧
      (∀ off ∈ idwDonors part g typ gid nc r,
        0 < donorWeight part.tinyL (donorDist2 part nc p off)) ∧
      0 < ws ∧
      ((idwDonors part g typ gid nc r).map fun off =>
        donorWeight part.tinyL (donorDist2 part nc p off) / ws).sum = 1 ∧
      (∀ m : Fin 6, Uo.getD (m : ℕ) 0 / ws = ((idwDonors part g typ gid nc r).map fun off =>
        (donorWeight part.tinyL (donorDist2 part nc p off) / ws) *
          (donorPrim model part g tn nc off).getD (m : ℕ) 0).sum) := by
  obtain ⟨pr, hpr⟩ := Option.isSome_iff_exists.mp hidw
  obtain ⟨r, hr, hDnil, hws, hUo⟩ :=
    idwGo_some_char model part g tn nc p typ gid fuel h pr hpr
  have hwpos : ∀ off ∈ idwDonors part g typ gid nc r,
      0 < donorWeight part.tinyL (donorDist2 part nc p off) := by
    intro off _
    exact one_div_pos.mpr (lt_max_iff.mpr (Or.inl htiny))
  have hwspos : 0 < pr.1 := by
    rw [hws]
    refine List.sum_pos _ ?_ ?_
    · intro x hx
      obtain ⟨off, hoff, rfl⟩ := List.mem_map.mp hx
      exact hwpos off hoff
    · simpa [List.map_eq_nil_iff] using hDnil
  have hwsne : pr.1 ≠ 0 := ne_of_gt hwspos
  refine ⟨r, pr.1, pr.2, by simpa using hpr, hr, hDnil, hws, hUo, hwpos, hwspos, ?_, ?_⟩
  · have : ((idwDonors part g typ gid nc r).map fun off =>
        donorWeight part.tinyL (donorDist2 part nc p off) / pr.1).sum
        = ((idwDonors part g typ gid nc r).map fun off =>
            donorWeight part.tinyL (donorDist2 part nc p off) * pr.1⁻¹).sum := by
      refine congrArg List.sum (List.map_congr_left ?_)
      intro off _
      rw [div_eq_mul_inv]
    rw [this, List.sum_map_mul_right, ← hws, mul_inv_cancel₀ hwsne]
  · intro m
    rw [hUo m, div_eq_mul_inv, ← List.sum_map_mul_right]
    refine congrArg List.sum (List.map_congr_left ?_)
    intro off _
    rw [div_eq_mul_inv]
    ring

/-- Witness for C7 at a concrete input: the single-donor configuration of
`gridC6` with positive `tinyL` and a successful two-pass search. -/
theorem c7_idw_convex_combination_witness :
    0 < partLine.tinyL ∧
    (InverseDistanceWeighting modelTwoOne partLine gridC6 2 0 ⟨1, 0, 0⟩ ⟨1, 0, 0⟩ 1 NONE 0).isSome
      = true ∧
    (∃ (r : ℤ) (ws : ℚ) (Uo : List ℚ),
      InverseDistanceWeighting modelTwoOne partLine gridC6 2 0 ⟨1, 0, 0⟩ ⟨1, 0, 0⟩ 1 NONE 0
        = some (ws, Uo) ∧
      1 ≤ r ∧ idwDonors partLine gridC6 NONE 0 ⟨1, 0, 0⟩ r ≠ [] ∧
      ws = ((idwDonors partLine gridC6 NONE 0 ⟨1, 0, 0⟩ r).map fun off =>
        donorWeight partLine.tinyL (donorDist2 partLine ⟨1, 0, 0⟩ ⟨1, 0, 0⟩ off)).sum ∧
      (∀ m : Fin 6, Uo.getD (m : ℕ) 0 = ((idwDonors partLine gridC6 NONE 0 ⟨1, 0, 0⟩ r).map fun off =>
        donorWeight partLine.tinyL (donorDist2 partLine ⟨1, 0, 0⟩ ⟨1, 0, 0⟩ off) *
          (donorPrim modelTwoOne partLine gridC6 0 ⟨1, 0, 0⟩ off).getD (m : ℕ) 0).sum) ∧
      (∀ off ∈ idwDonors partLine gridC6 NONE 0 ⟨1, 0, 0⟩ r,
        0 < donorWeight partLine.tinyL (donorDist2 partLine ⟨1, 0, 0⟩ ⟨1, 0, 0⟩ off)) ∧
      0 < ws ∧
      ((idwDonors partLine gridC6 NONE 0 ⟨1, 0, 0⟩ r).map fun off =>
        donorWeight partLine.tinyL (donorDist2 partLine ⟨1, 0, 0⟩ ⟨1, 0, 0⟩ off) / ws).sum = 1 ∧
      (∀ m : Fin 6, Uo.getD (m : ℕ) 0 / ws = ((idwDonors partLine gridC6 NONE 0 ⟨1, 0, 0⟩ r).map fun off =>
        (donorWeight partLine.tinyL (donorDist2 partLine ⟨1, 0, 0⟩ ⟨1, 0, 0⟩ off) / ws) *
          (donorPrim modelTwoOne partLine gridC6 0 ⟨1, 0, 0⟩ off).getD (m : ℕ) 0).sum)) :=
  ⟨by norm_num [partLine], by decide,
   c7_idw_convex_combination modelTwoOne partLine gridC6 2 0 ⟨1, 0, 0⟩ ⟨1, 0, 0⟩ 1 NONE 0
     (by norm_num [partLine]) (by decide)⟩

end ArtraCFD

namespace ArtraCFD

/-! ## Loop-range and index lemmas -/

theorem mem_intRange {lo hi a : ℤ} : a ∈ intRange lo hi ↔ lo ≤ a ∧ a < hi := by
  constructor
  · intro h
    obtain ⟨t, ht, hEq⟩ := List.mem_map.mp h
    have ht2 := List.mem_range.mp ht
    omega
  · intro h
    exact List.mem_map.mpr ⟨(a - lo).toNat, List.mem_range.mpr (by omega), by omega⟩

theorem nodup_intRange (lo hi : ℤ) : (intRange lo hi).Nodup := by
  refine List.Nodup.map ?_ (List.nodup_range _)
  intro a b hab
  have hab2 : lo + (a : ℤ) = lo + (b : ℤ) := hab
  omega

theorem mem_tripleList {lz ly lx : List ℤ} {c : Int3} :
    c ∈ tripleList lz ly lx ↔ c.z ∈ lz ∧ c.y ∈ ly ∧ c.x ∈ lx := by
  unfold tripleList
  simp only [List.mem_flatMap, List.mem_map]
  constructor
  · rintro ⟨k, hk, j, hj, i, hi, rfl⟩
    exact ⟨hk, hj, hi⟩
  · rintro ⟨hz, hy, hx⟩
    exact ⟨c.z, hz, c.y, hy, c.x, hx, rfl⟩

theorem nodup_pairBlock (k : ℤ) {ly lx : List ℤ} (hy : ly.Nodup) (hx : lx.Nodup) :
    (ly.flatMap fun j => lx.map fun i => (⟨i, j, k⟩ : Int3)).Nodup := by
  induction ly with
  | nil => simp
  | cons j t ih =>
    rw [List.flatMap_cons]
    have hyt := List.nodup_cons.mp hy
    refine List.Nodup.append ?_ (ih hyt.2) ?_
    · exact List.Nodup.map (fun a b hab => congrArg Int3.x hab) hx
    · intro a ha hb
      obtain ⟨i, hi, rfl⟩ := List.mem_map.mp ha
      obtain ⟨j2, hj2, hmem⟩ := List.mem_flatMap.mp hb
      obtain ⟨i2, hi2, hEq⟩ := List.mem_map.mp hmem
      have hjj : j2 = j := congrArg Int3.y hEq
      exact hyt.1 (hjj ▸ hj2)

theorem nodup_tripleList {lz ly lx : List ℤ} (hz : lz.Nodup) (hy : ly.Nodup) (hx : lx.Nodup) :
    (tripleList lz ly lx).Nodup := by
  induction lz with
  | nil => simp [tripleList]
  | cons k t ih =>
    have hzt := List.nodup_cons.mp hz
    have hstep : tripleList (k :: t) ly lx
        = (ly.flatMap fun j => lx.map fun i => (⟨i, j, k⟩ : Int3)) ++ tripleList t ly lx := by
      simp [tripleList, List.flatMap_cons]
    rw [hstep]
    refine List.Nodup.append (nodup_pairBlock k hy hx) (ih hzt.2) ?_
    intro a ha hb
    obtain ⟨j, hj, hmem⟩ := List.mem_flatMap.mp ha
    obtain ⟨i, hi, rfl⟩ := List.mem_map.mp hmem
    exact hzt.1 ((mem_tripleList.mp hb).1)

theorem decompose_unique {n0 : ℤ} (hn : 0 < n0) {A B a b : ℤ}
    (ha : 0 ≤ a) (ha2 : a < n0) (hb : 0 ≤ b) (hb2 : b < n0)
    (h : A * n0 + a = B * n0 + b) : A = B ∧ a = b := by
  have hmodA : (A * n0 + a) % n0 = a := by
    rw [add_comm, mul_comm, Int.add_mul_emod_self_left, Int.emod_eq_of_lt ha ha2]
  have hmodB : (B * n0 + b) % n0 = b := by
    rw [add_comm, mul_comm, Int.add_mul_emod_self_left, Int.emod_eq_of_lt hb hb2]
  have hab : a = b := by rw [← hmodA, h, hmodB]
  subst hab
  have h2 : A * n0 = B * n0 := by linarith
  exact ⟨mul_right_cancel₀ (ne_of_gt hn) h2, rfl⟩

theorem indexNode_inj {nY nX : ℤ} (hX : 0 < nX) (hY : 0 < nY)
    {c1 c2 : Int3} (hx1 : 0 ≤ c1.x) (hx1b : c1.x < nX) (hy1 : 0 ≤ c1.y) (hy1b : c1.y < nY)
    (hx2 : 0 ≤ c2.x) (hx2b : c2.x < nX) (hy2 : 0 ≤ c2.y) (hy2b : c2.y < nY)
    (h : indexNode c1.z c1.y c1.x nY nX = indexNode c2.z c2.y c2.x nY nX) : c1 = c2 := by
  unfold indexNode at h
  obtain ⟨hA, hxEq⟩ := decompose_unique hX hx1 hx1b hx2 hx2b h
  obtain ⟨hzEq, hyEq⟩ := decompose_unique hY hy1 hy1b hy2 hy2b hA
  cases c1
  cases c2
  simp_all

/-! ## Localization of grid folds -/

theorem foldl_untouched {α : Type} (step : Grid → α → Grid) (key : α → ℤ)
    (hloc : ∀ g c idx, idx ≠ key c → step g c idx = g idx)
    (cs : List α) (g : Grid) (idx : ℤ) (hidx : ∀ c ∈ cs, key c ≠ idx) :
    cs.foldl step g idx = g idx := by
  induction cs generalizing g with
  | nil => rfl
  | cons c t ih =>
    rw [List.foldl_cons, ih _ fun c' hc' => hidx c' (List.mem_cons_of_mem _ hc')]
    exact hloc g c idx fun he => hidx c (List.mem_cons_self _ _) he.symm

theorem foldl_at_mem {α : Type} (step : Grid → α → Grid) (key : α → ℤ)
    (hloc : ∀ g c idx, idx ≠ key c → step g c idx = g idx)
    (cs : List α) (hkeys : (cs.map key).Nodup) (c : α) (hc : c ∈ cs) (g : Grid) :
    ∃ l1 l2, cs = l1 ++ c :: l2 ∧ c ∉ l1 ∧ c ∉ l2 ∧
      cs.foldl step g (key c) = step (l1.foldl step g) c (key c) ∧
      l1.foldl step g (key c) = g (key c) := by
  obtain ⟨l1, l2, rfl⟩ := List.append_of_mem hc
  have hmid : (key c :: (l1.map key ++ l2.map key)).Nodup := by
    rw [List.map_append, List.map_cons] at hkeys
    exact List.nodup_middle.mp hkeys
  have hnotin := (List.nodup_cons.mp hmid).1
  have h1 : key c ∉ l1.map key := fun hmem => hnotin (List.mem_append_left _ hmem)
  have h2 : key c ∉ l2.map key := fun hmem => hnotin (List.mem_append_right _ hmem)
  refine ⟨l1, l2, rfl, fun hmem => h1 (List.mem_map_of_mem key hmem),
    fun hmem => h2 (List.mem_map_of_mem key hmem), ?_, ?_⟩
  · rw [List.foldl_append, List.foldl_cons]
    exact foldl_untouched step key hloc l2 _ (key c)
      fun c' hc' heq => h2 (heq ▸ List.mem_map_of_mem key hc')
  · exact foldl_untouched step key hloc l1 g (key c)
      fun c' hc' heq => h1 (heq ▸ List.mem_map_of_mem key hc')

theorem foldl_pointwise {α : Type} (step : Grid → α → Grid) (P : Node → Node → Prop)
    (hrefl : ∀ nd, P nd nd) (htrans : ∀ a b c, P a b → P b c → P a c)
    (cs : List α) (hstep : ∀ g c idx, c ∈ cs → P (g idx) (step g c idx)) :
    ∀ (g : Grid) (idx : ℤ), P (g idx) (cs.foldl step g idx) := by
  induction cs with
  | nil => intro g idx; exact hrefl _
  | cons c t ih =>
    intro g idx
    rw [List.foldl_cons]
    refine htrans _ _ _ (hstep g c idx (List.mem_cons_self _ _)) ?_
    exact ih (fun g' c' idx' hc' => hstep g' c' idx' (List.mem_cons_of_mem _ hc')) _ _

/-! ## Key-distinctness of the swept coordinate lists -/

theorem keyNodup_tripleList (part : Partition) (lz ly lx : List ℤ)
    (hz : lz.Nodup) (hy : ly.Nodup) (hx : lx.Nodup)
    (hxb : ∀ a ∈ lx, 0 ≤ a ∧ a < part.n.x) (hyb : ∀ a ∈ ly, 0 ≤ a ∧ a < part.n.y)
    (hnx : 0 < part.n.x) (hny : 0 < part.n.y) :
    ((tripleList lz ly lx).map (idxOf part)).Nodup := by
  refine List.Nodup.map_on ?_ (nodup_tripleList hz hy hx)
  intro c1 h1 c2 h2 heq
  obtain ⟨hz1, hy1, hx1⟩ := mem_tripleList.mp h1
  obtain ⟨hz2, hy2, hx2⟩ := mem_tripleList.mp h2
  exact indexNode_inj hnx hny (hxb _ hx1).1 (hxb _ hx1).2 (hyb _ hy1).1 (hyb _ hy1).2
    (hxb _ hx2).1 (hxb _ hx2).2 (hyb _ hy2).1 (hyb _ hy2).2 heq

theorem keyNodup_interior (part : Partition) (hpv : PartValid part) :
    ((interiorCoords part).map (idxOf part)).Nodup := by
  obtain ⟨h1, h2, h3, h4, h5, h6, h7, h8, h9, h10, h11, h12⟩ := hpv
  refine keyNodup_tripleList part _ _ _ (nodup_intRange _ _) (nodup_intRange _ _)
    (nodup_intRange _ _) ?_ ?_ h10 h11
  · intro a ha
    have := mem_intRange.mp ha
    omega
  · intro a ha
    have := mem_intRange.mp ha
    omega

end ArtraCFD

namespace ArtraCFD

/-! ## The shared neighbour-scan of InterfacialState and GhostState -/

theorem sorted_le_range (n : ℕ) : (List.range n).Sorted (· ≤ ·) :=
  (List.sorted_lt_range n).imp fun h => le_of_lt h

theorem find?_mono_sorted {l : List ℕ} (hs : l.Sorted (· ≤ ·)) {p q : ℕ → Bool}
    (himp : ∀ x, p x = true → q x = true) {a : ℕ} (hp : l.find? p = some a) :
    ∃ b, l.find? q = some b ∧ b ≤ a := by
  induction l with
  | nil => simp at hp
  | cons h0 t ih =>
    have hs2 := List.sorted_cons.mp hs
    by_cases hq : q h0 = true
    · refine ⟨h0, List.find?_cons_of_pos _ hq, ?_⟩
      have ha := List.mem_of_find?_eq_some hp
      rcases List.mem_cons.mp ha with rfl | hat
      · exact le_refl _
      · exact hs2.1 a hat
    · have hp0 : ¬p h0 = true := fun hph => hq (himp _ hph)
      rw [List.find?_cons_of_neg _ hp0] at hp
      obtain ⟨b, hb, hba⟩ := ih hs2.2 hp
      exact ⟨b, by rw [List.find?_cons_of_neg _ hq]; exact hb, hba⟩

theorem mem_layerList {part : Partition} {r : ℕ} :
    r ∈ ((List.range part.gl).map fun t => t + 1) ↔ 1 ≤ r ∧ r ≤ part.gl := by
  simp only [List.mem_map, List.mem_range]
  constructor
  · rintro ⟨t, ht, rfl⟩
    omega
  · rintro ⟨h1, h2⟩
    exact ⟨r - 1, by omega, by omega⟩

theorem layerList_sorted (part : Partition) :
    (((List.range part.gl).map fun t => t + 1)).Sorted (· ≤ ·) :=
  List.Pairwise.map _ (fun h => by omega) (sorted_le_range part.gl)

theorem layerOf_le_gl (part : Partition) (n : ℕ) : layerOf part n ≤ part.gl := by
  unfold layerOf
  cases hf : ((List.range part.gl).map fun t => t + 1).find?
      (fun r => (n : ℤ) < part.pathSep.getD r 0) with
  | none => simp
  | some r =>
    have hr := List.mem_of_find?_eq_some hf
    simpa using (mem_layerList.mp hr).2

theorem layerOf_zero_forall (part : Partition) (n : ℕ) (h : layerOf part n = 0) :
    ∀ r, 1 ≤ r → r ≤ part.gl → ¬((n : ℤ) < part.pathSep.getD r 0) := by
  intro r hr1 hr2
  unfold layerOf at h
  cases hf : ((List.range part.gl).map fun t => t + 1).find?
      (fun r => (n : ℤ) < part.pathSep.getD r 0) with
  | none =>
    have := List.find?_eq_none.mp hf r (mem_layerList.mpr ⟨hr1, hr2⟩)
    simpa using this
  | some r0 =>
    rw [hf] at h
    have hr0 := List.mem_of_find?_eq_some hf
    have := (mem_layerList.mp hr0).1
    simp at h
    omega

theorem layerOf_mono_zero (part : Partition) {n m : ℕ} (hnm : n ≤ m)
    (h : layerOf part n = 0) : layerOf part m = 0 := by
  unfold layerOf
  rw [List.find?_eq_none.mpr]
  · rfl
  · intro r hr
    have hb := mem_layerList.mp hr
    have := layerOf_zero_forall part n h r hb.1 hb.2
    simp only [decide_eq_true_eq]
    omega

theorem layerOf_le_of_le (part : Partition) {n m : ℕ} (hnm : n ≤ m)
    (hm : layerOf part m ≠ 0) :
    layerOf part n ≠ 0 ∧ layerOf part n ≤ layerOf part m := by
  unfold layerOf at hm ⊢
  cases hf : ((List.range part.gl).map fun t => t + 1).find?
      (fun r => (m : ℤ) < part.pathSep.getD r 0) with
  | none => rw [hf] at hm; simp at hm
  | some r =>
    rw [hf] at hm
    obtain ⟨b, hb, hba⟩ := find?_mono_sorted (layerList_sorted part)
      (p := fun r => decide ((m : ℤ) < part.pathSep.getD r 0))
      (q := fun r => decide ((n : ℤ) < part.pathSep.getD r 0))
      (fun x hx => by
        simp only [decide_eq_true_eq] at hx ⊢
        omega) hf
    rw [hb]
    have hbmem := List.mem_of_find?_eq_some hb
    have hb1 := (mem_layerList.mp hbmem).1
    simp only [Option.getD_some]
    exact ⟨by omega, hba⟩

theorem stateScan_zero (part : Partition) (g : Grid) (k j i gid : ℤ) (wantEq : Bool) :
    ∀ ns : List ℕ, (∀ m ∈ ns, layerOf part m = 0) →
      stateScan part g k j i gid wantEq ns = 0 := by
  intro ns
  induction ns with
  | nil => intro _; rfl
  | cons n t ih =>
    intro hall
    have h0 : layerOf part n = 0 := hall n (List.mem_cons_self _ _)
    have hrec := ih fun m hm => hall m (List.mem_cons_of_mem _ hm)
    simp only [stateScan]
    by_cases hN : (g (indexNode (k + (part.path.getD n ⟨0, 0, 0⟩).z)
        (j + (part.path.getD n ⟨0, 0, 0⟩).y) (i + (part.path.getD n ⟨0, 0, 0⟩).x)
        part.n.y part.n.x)).gid = NONE
    · rw [if_pos hN]
      exact hrec
    · rw [if_neg hN]
      by_cases hgc : (if wantEq
          then (g (indexNode (k + (part.path.getD n ⟨0, 0, 0⟩).z)
            (j + (part.path.getD n ⟨0, 0, 0⟩).y) (i + (part.path.getD n ⟨0, 0, 0⟩).x)
            part.n.y part.n.x)).gid = gid
          else (g (indexNode (k + (part.path.getD n ⟨0, 0, 0⟩).z)
            (j + (part.path.getD n ⟨0, 0, 0⟩).y) (i + (part.path.getD n ⟨0, 0, 0⟩).x)
            part.n.y part.n.x)).gid ≠ gid)
      · rw [if_pos hgc, if_neg (by simpa using h0)]
        exact hrec
      · rw [if_neg hgc]
        exact hrec

theorem stateScan_eq_find (part : Partition) (g : Grid) (k j i gid : ℤ) (wantEq : Bool) :
    ∀ ns : List ℕ, ns.Sorted (· ≤ ·) →
      stateScan part g k j i gid wantEq ns =
        match ns.find? (scanCond part g k j i gid wantEq) with
        | none => 0
        | some n => (layerOf part n : ℤ) := by
  intro ns
  induction ns with
  | nil => intro _; rfl
  | cons n t ih =>
    intro hs
    have hs2 := List.sorted_cons.mp hs
    by_cases hcP : ((g (indexNode (k + (part.path.getD n ⟨0, 0, 0⟩).z)
        (j + (part.path.getD n ⟨0, 0, 0⟩).y) (i + (part.path.getD n ⟨0, 0, 0⟩).x)
        part.n.y part.n.x)).gid ≠ NONE ∧
        (if wantEq then (g (indexNode (k + (part.path.getD n ⟨0, 0, 0⟩).z)
        (j + (part.path.getD n ⟨0, 0, 0⟩).y) (i + (part.path.getD n ⟨0, 0, 0⟩).x)
        part.n.y part.n.x)).gid = gid
        else (g (indexNode (k + (part.path.getD n ⟨0, 0, 0⟩).z)
        (j + (part.path.getD n ⟨0, 0, 0⟩).y) (i + (part.path.getD n ⟨0, 0, 0⟩).x)
        part.n.y part.n.x)).gid ≠ gid))
    · rw [List.find?_cons_of_pos _ (by simp only [scanCond, decide_eq_true_eq]; exact hcP)]
      by_cases hl : layerOf part n = 0
      · have hall : ∀ m ∈ t, layerOf part m = 0 := fun m hm =>
          layerOf_mono_zero part (hs2.1 m hm) hl
        simp only [stateScan, hl]
        rw [if_neg (by simpa using hcP.1), if_pos hcP.2]
        rw [if_neg (by simp)]
        rw [stateScan_zero part g k j i gid wantEq t hall]
        simp [hl]
      · simp only [stateScan]
        rw [if_neg (by simpa using hcP.1), if_pos hcP.2, if_pos (by simpa using hl)]
    · rw [List.find?_cons_of_neg _ (by simp only [scanCond, decide_eq_true_eq]; exact hcP)]
      simp only [stateScan]
      by_cases hN : (g (indexNode (k + (part.path.getD n ⟨0, 0, 0⟩).z)
          (j + (part.path.getD n ⟨0, 0, 0⟩).y) (i + (part.path.getD n ⟨0, 0, 0⟩).x)
          part.n.y part.n.x)).gid = NONE
      · rw [if_pos hN]
        exact ih hs2.2
      · rw [if_neg hN]
        have hgc : ¬(if wantEq
            then (g (indexNode (k + (part.path.getD n ⟨0, 0, 0⟩).z)
              (j + (part.path.getD n ⟨0, 0, 0⟩).y) (i + (part.path.getD n ⟨0, 0, 0⟩).x)
              part.n.y part.n.x)).gid = gid
            else (g (indexNode (k + (part.path.getD n ⟨0, 0, 0⟩).z)
              (j + (part.path.getD n ⟨0, 0, 0⟩).y) (i + (part.path.getD n ⟨0, 0, 0⟩).x)
              part.n.y part.n.x)).gid ≠ gid) := fun hgc => hcP ⟨hN, hgc⟩
        rw [if_neg hgc]
        exact ih hs2.2

theorem InterfacialState_eq_find (part : Partition) (g : Grid) (k j i gid : ℤ) :
    InterfacialState part g k j i gid =
      match (List.range (part.pathSep.getD 0 0).toNat).find?
          (scanCond part g k j i gid false) with
      | none => 0
      | some n => (layerOf part n : ℤ) :=
  stateScan_eq_find part g k j i gid false _ (sorted_le_range _)

theorem GhostState_eq_find (part : Partition) (g : Grid) (k j i gid : ℤ) :
    GhostState part g k j i gid =
      match (List.range (part.pathSep.getD 0 0).toNat).find?
          (scanCond part g k j i gid true) with
      | none => 0
      | some n => (layerOf part n : ℤ) :=
  stateScan_eq_find part g k j i gid true _ (sorted_le_range _)

theorem GhostState_eq_ghostSpec (part : Partition) (g : Grid) (c : Int3) :
    GhostState part g c.z c.y c.x 0 = ghostSpec part g c := by
  rw [GhostState_eq_find]
  rfl

theorem InterfacialState_bounds (part : Partition) (g : Grid) (k j i gid : ℤ) :
    0 ≤ InterfacialState part g k j i gid ∧ InterfacialState part g k j i gid ≤ part.gl := by
  rw [InterfacialState_eq_find]
  cases hf : (List.range (part.pathSep.getD 0 0).toNat).find?
      (scanCond part g k j i gid false) with
  | none => simp
  | some n => simpa using layerOf_le_gl part n

theorem GhostState_bounds (part : Partition) (g : Grid) (k j i gid : ℤ) :
    0 ≤ GhostState part g k j i gid ∧ GhostState part g k j i gid ≤ part.gl := by
  rw [GhostState_eq_find]
  cases hf : (List.range (part.pathSep.getD 0 0).toNat).find?
      (scanCond part g k j i gid true) with
  | none => simp
  | some n => simpa using layerOf_le_gl part n

theorem stateScan_congr (part : Partition) {g1 g2 : Grid}
    (hgg : ∀ idx, (g1 idx).gid = (g2 idx).gid) (k j i gid : ℤ) (wantEq : Bool) :
    ∀ ns : List ℕ, stateScan part g1 k j i gid wantEq ns = stateScan part g2 k j i gid wantEq ns := by
  intro ns
  induction ns with
  | nil => rfl
  | cons n t ih =>
    simp only [stateScan, hgg]
    rw [ih]

theorem InterfacialState_congr (part : Partition) {g1 g2 : Grid}
    (hgg : ∀ idx, (g1 idx).gid = (g2 idx).gid) (k j i gid : ℤ) :
    InterfacialState part g1 k j i gid = InterfacialState part g2 k j i gid :=
  stateScan_congr part hgg k j i gid false _

theorem GhostState_congr (part : Partition) {g1 g2 : Grid}
    (hgg : ∀ idx, (g1 idx).gid = (g2 idx).gid) (k j i gid : ℤ) :
    GhostState part g1 k j i gid = GhostState part g2 k j i gid :=
  stateScan_congr part hgg k j i gid true _

theorem ghostSpec_congr (part : Partition) {g1 g2 : Grid}
    (hgg : ∀ idx, (g1 idx).gid = (g2 idx).gid) (c : Int3) :
    ghostSpec part g1 c = ghostSpec part g2 c := by
  unfold ghostSpec
  have hsc : scanCond part g1 c.z c.y c.x 0 true = scanCond part g2 c.z c.y c.x 0 true := by
    funext n
    simp only [scanCond, hgg]
  rw [hsc]

end ArtraCFD

namespace ArtraCFD

/-! ## Per-step write-localization of the classifier sweeps -/

theorem initStep_loc (geo : List Polyhedron) (defPoly : Polyhedron) (part : Partition) :
    ∀ (g : Grid) (c : Int3) (idx : ℤ), idx ≠ idxOf part c →
      (Function.update g (idxOf part c) (resetNode geo defPoly (g (idxOf part c)))) idx = g idx :=
  fun _ _ _ h => Function.update_noteq h _ _

theorem claimNode_loc (ext : Ext) (part : Partition) (nIdx : ℕ) (poly : Polyhedron) :
    ∀ (g : Grid) (c : Int3) (idx : ℤ), idx ≠ idxOf part c →
      claimNode ext part nIdx poly g c idx = g idx := by
  intro g c idx h
  simp only [claimNode]
  split
  · rfl
  · split
    · rw [apply_ite (fun hh : Grid => hh idx)]
      simp only [Function.update_noteq h]
      rw [ite_self]
    · rw [apply_ite (fun hh : Grid => hh idx)]
      simp only [Function.update_noteq h]
      rw [ite_self]

theorem reconNewly_loc (model : Model) (part : Partition) (fuel : ℕ) :
    ∀ (g : Grid) (c : Int3) (idx : ℤ), idx ≠ idxOf part c →
      reconNewly model part g fuel c idx = g idx := by
  intro g c idx h
  unfold reconNewly
  cases InverseDistanceWeighting model part g fuel TO c (pointOf part c) R NONE 0 with
  | none => rfl
  | some pr =>
    obtain ⟨ws, Uo⟩ := pr
    simp only [Function.update_noteq h]

theorem reconNewly_gid (model : Model) (part : Partition) (fuel : ℕ) (g : Grid) (c : Int3) :
    (reconNewly model part g fuel c (idxOf part c)).gid = (g (idxOf part c)).gid := by
  unfold reconNewly
  cases InverseDistanceWeighting model part g fuel TO c (pointOf part c) R NONE 0 with
  | none => rfl
  | some pr =>
    obtain ⟨ws, Uo⟩ := pr
    simp only [Function.update_same]

theorem iinStep_loc (model : Model) (part : Partition) (fuel : ℕ) :
    ∀ (g : Grid) (c : Int3) (idx : ℤ), idx ≠ idxOf part c →
      iinStep model part fuel g c idx = g idx := by
  intro g c idx h
  by_cases htr : ((g (idxOf part c)).fid ≠ NONE ∧ (g (idxOf part c)).gid = 0)
  · simp only [iinStep, if_pos htr]
    have hrec := reconNewly_loc model part fuel g c idx h
    split
    · exact hrec
    · rw [apply_ite (fun hh : Grid => hh idx)]
      simp only [Function.update_noteq h]
      rw [ite_self]
      exact hrec
  · simp only [iinStep, if_neg htr]
    split
    · rfl
    · rw [apply_ite (fun hh : Grid => hh idx)]
      simp only [Function.update_noteq h]
      rw [ite_self]

/-! ## Field preservation across the phases -/

theorem iinStep_gid (model : Model) (part : Partition) (fuel : ℕ) (g : Grid) (c : Int3)
    (idx : ℤ) : ((iinStep model part fuel g c) idx).gid = (g idx).gid := by
  by_cases h : idx = idxOf part c
  · rw [h]
    by_cases htr : ((g (idxOf part c)).fid ≠ NONE ∧ (g (idxOf part c)).gid = 0)
    · simp only [iinStep, if_pos htr]
      have hrg := reconNewly_gid model part fuel g c
      by_cases hz : (reconNewly model part g fuel c (idxOf part c)).gid = 0
      · rw [apply_ite (fun hh : Grid => hh (idxOf part c)), if_pos hz]
        exact hrg
      · rw [apply_ite (fun hh : Grid => hh (idxOf part c)), if_neg hz]
        rw [apply_ite (fun hh : Grid => hh (idxOf part c))]
        simp only [Function.update_same]
        split
        · exact hrg
        · exact hrg
    · simp only [iinStep, if_neg htr]
      by_cases hz : (g (idxOf part c)).gid = 0
      · rw [apply_ite (fun hh : Grid => hh (idxOf part c)), if_pos hz]
      · rw [apply_ite (fun hh : Grid => hh (idxOf part c)), if_neg hz]
        rw [apply_ite (fun hh : Grid => hh (idxOf part c))]
        simp only [Function.update_same]
        split
        · rfl
        · rfl
  · rw [iinStep_loc model part fuel g c idx h]

theorem IdentifyInterfacialNode_gid (model : Model) (part : Partition) (fuel : ℕ)
    (g : Grid) (idx : ℤ) :
    ((IdentifyInterfacialNode model part fuel g) idx).gid = (g idx).gid :=
  foldl_pointwise (iinStep model part fuel) (fun a b => b.gid = a.gid)
    (fun _ => rfl) (fun _ _ _ h1 h2 => h2.trans h1) (interiorCoords part)
    (fun g' c' idx' _ => iinStep_gid model part fuel g' c' idx') g idx

/-- Ownership-phase per-node invariant: `lid`, `gst` and `U` are kept, and
already-owned nodes are kept entirely. -/
def OwnP (a b : Node) : Prop :=
  (b.lid = a.lid ∧ b.gst = a.gst ∧ b.U = a.U) ∧ (a.gid ≠ 0 → b = a)

theorem OwnP_refl (nd : Node) : OwnP nd nd := ⟨⟨rfl, rfl, rfl⟩, fun _ => rfl⟩

theorem OwnP_trans (a b c : Node) (h1 : OwnP a b) (h2 : OwnP b c) : OwnP a c := by
  refine ⟨⟨h2.1.1.trans h1.1.1, h2.1.2.1.trans h1.1.2.1, h2.1.2.2.trans h1.1.2.2⟩, ?_⟩
  intro ha
  have hb := h1.2 ha
  rw [hb] at h2
  exact h2.2 ha

theorem claimNode_OwnP (ext : Ext) (part : Partition) (nIdx : ℕ) (poly : Polyhedron)
    (g : Grid) (c : Int3) (idx : ℤ) : OwnP (g idx) ((claimNode ext part nIdx poly g c) idx) := by
  by_cases h : idx = idxOf part c
  · rw [h]
    by_cases hgz : (g (idxOf part c)).gid ≠ 0
    · simp only [claimNode, if_pos hgz]
      exact OwnP_refl _
    · simp only [claimNode, if_neg hgz]
      have hg0 : (g (idxOf part c)).gid = 0 := by
        by_contra hne
        exact hgz hne
      split
      · rw [apply_ite (fun hh : Grid => hh (idxOf part c))]
        simp only [Function.update_same]
        split
        · exact ⟨⟨rfl, rfl, rfl⟩, fun hne => absurd hg0 hne⟩
        · exact OwnP_refl _
      · rw [apply_ite (fun hh : Grid => hh (idxOf part c))]
        simp only [Function.update_same]
        split
        · exact ⟨⟨rfl, rfl, rfl⟩, fun hne => absurd hg0 hne⟩
        · exact OwnP_refl _
  · rw [claimNode_loc ext part nIdx poly g c idx h]
    exact OwnP_refl _

theorem sweepShape_OwnP (ext : Ext) (part : Partition) (nIdx : ℕ) (poly : Polyhedron)
    (g : Grid) (idx : ℤ) : OwnP (g idx) ((sweepShape ext part nIdx poly g) idx) := by
  unfold sweepShape
  split
  · exact OwnP_refl _
  · exact foldl_pointwise (claimNode ext part nIdx poly) OwnP OwnP_refl OwnP_trans
      (boxCoords part poly) (fun g' c' idx' _ => claimNode_OwnP ext part nIdx poly g' c' idx') g idx

theorem IdentifyGeometryNode_OwnP (ext : Ext) (part : Partition) (geo : List Polyhedron)
    (g : Grid) (idx : ℤ) : OwnP (g idx) ((IdentifyGeometryNode ext part geo g) idx) := by
  unfold IdentifyGeometryNode
  exact foldl_pointwise (fun g1 np => sweepShape ext part np.1 np.2 g1) OwnP OwnP_refl OwnP_trans
    geo.enum (fun g' np idx' _ => sweepShape_OwnP ext part np.1 np.2 g' idx') g idx

theorem sweepShape_stationary (ext : Ext) (part : Partition) (nIdx : ℕ) (poly : Polyhedron)
    (g : Grid) (h : poly.state = 1) : sweepShape ext part nIdx poly g = g := by
  simp [sweepShape, h]

theorem snd_mem_of_mem_enumFrom {α : Type} :
    ∀ {l : List α} {n : ℕ} {p : ℕ × α}, p ∈ l.enumFrom n → p.2 ∈ l := by
  intro l
  induction l with
  | nil => intro n p hp; simp [List.enumFrom] at hp
  | cons a t ih =>
    intro n p hp
    rw [List.enumFrom_cons] at hp
    rcases List.mem_cons.mp hp with rfl | hmem
    · exact List.mem_cons_self _ _
    · exact List.mem_cons_of_mem _ (ih hmem)

theorem snd_mem_of_mem_enum {α : Type} {l : List α} {p : ℕ × α} (hp : p ∈ l.enum) : p.2 ∈ l :=
  snd_mem_of_mem_enumFrom hp

theorem IdentifyGeometryNode_stationary (ext : Ext) (part : Partition) (geo : List Polyhedron)
    (g : Grid) (hst : ∀ p ∈ geo, p.state = 1) :
    IdentifyGeometryNode ext part geo g = g := by
  unfold IdentifyGeometryNode
  have H : ∀ (l : List (ℕ × Polyhedron)), (∀ np ∈ l, np.2.state = 1) → ∀ g1 : Grid,
      l.foldl (fun g2 np => sweepShape ext part np.1 np.2 g2) g1 = g1 := by
    intro l
    induction l with
    | nil => intro _ g1; rfl
    | cons np t ih =>
      intro hl g1
      rw [List.foldl_cons, sweepShape_stationary ext part np.1 np.2 g1
        (hl np (List.mem_cons_self _ _))]
      exact ih (fun np' h' => hl np' (List.mem_cons_of_mem _ h')) g1
  exact H _ (fun np hnp => hst np.2 (snd_mem_of_mem_enum hnp)) g

/-! ## Pointwise characterization of the phase sweeps -/

theorem InitializeGeometryDomain_at (geo : List Polyhedron) (defPoly : Polyhedron)
    (part : Partition) (hpv : PartValid part) (g : Grid) (c : Int3)
    (hc : c ∈ interiorCoords part) :
    InitializeGeometryDomain geo defPoly part g (idxOf part c)
      = resetNode geo defPoly (g (idxOf part c)) := by
  obtain ⟨l1, l2, hsplit, hn1, hn2, hval, hpre⟩ :=
    foldl_at_mem _ (idxOf part) (initStep_loc geo defPoly part) (interiorCoords part)
      (keyNodup_interior part hpv) c hc g
  rw [InitializeGeometryDomain, hval, Function.update_same, hpre]

theorem InitializeGeometryDomain_untouched (geo : List Polyhedron) (defPoly : Polyhedron)
    (part : Partition) (g : Grid) (idx : ℤ)
    (hidx : ∀ c ∈ interiorCoords part, idxOf part c ≠ idx) :
    InitializeGeometryDomain geo defPoly part g idx = g idx :=
  foldl_untouched _ (idxOf part) (initStep_loc geo defPoly part) (interiorCoords part) g idx hidx

theorem iinStep_at_owned (model : Model) (part : Partition) (fuel : ℕ) (g : Grid) (c : Int3)
    (hgid : (g (idxOf part c)).gid ≠ 0) :
    (iinStep model part fuel g c) (idxOf part c) =
      (if InterfacialState part g c.z c.y c.x ((g (idxOf part c)).gid) ≠ 0 then
        { g (idxOf part c) with
            lid := InterfacialState part g c.z c.y c.x ((g (idxOf part c)).gid),
            gst := GhostState part g c.z c.y c.x 0 }
      else { g (idxOf part c) with
            lid := InterfacialState part g c.z c.y c.x ((g (idxOf part c)).gid),
            gst := 0 }) := by
  have htrigF : ¬((g (idxOf part c)).fid ≠ NONE ∧ (g (idxOf part c)).gid = 0) := by
    rintro ⟨-, h0⟩
    exact hgid h0
  simp only [iinStep, if_neg htrigF]
  rw [apply_ite (fun hh : Grid => hh (idxOf part c)), if_neg hgid]
  rw [apply_ite (fun hh : Grid => hh (idxOf part c))]
  simp only [Function.update_same]
  have hGS : GhostState part (Function.update g (idxOf part c)
      { g (idxOf part c) with
          lid := InterfacialState part g c.z c.y c.x ((g (idxOf part c)).gid), gst := 0 })
      c.z c.y c.x 0 = GhostState part g c.z c.y c.x 0 := by
    refine GhostState_congr part ?_ c.z c.y c.x 0
    intro idx
    by_cases hh : idx = idxOf part c
    · rw [hh, Function.update_same]
    · rw [Function.update_noteq hh]
  rw [hGS]
  rw [if_congr (and_iff_left hgid) rfl rfl]

theorem iinStep_at_trigger (model : Model) (part : Partition) (fuel : ℕ) (g : Grid) (c : Int3)
    (htr : (g (idxOf part c)).fid ≠ NONE ∧ (g (idxOf part c)).gid = 0) :
    (iinStep model part fuel g c) (idxOf part c)
      = reconNewly model part g fuel c (idxOf part c) := by
  simp only [iinStep, if_pos htr]
  have hz : (reconNewly model part g fuel c (idxOf part c)).gid = 0 := by
    rw [reconNewly_gid]
    exact htr.2
  rw [apply_ite (fun hh : Grid => hh (idxOf part c)), if_pos hz]

theorem iinStep_at_skip (model : Model) (part : Partition) (fuel : ℕ) (g : Grid) (c : Int3)
    (hfid : (g (idxOf part c)).fid = NONE) (hgid : (g (idxOf part c)).gid = 0) :
    (iinStep model part fuel g c) (idxOf part c) = g (idxOf part c) := by
  have htrigF : ¬((g (idxOf part c)).fid ≠ NONE ∧ (g (idxOf part c)).gid = 0) := by
    rintro ⟨hne, -⟩
    exact hne hfid
  simp only [iinStep, if_neg htrigF]
  rw [apply_ite (fun hh : Grid => hh (idxOf part c)), if_pos hgid]

theorem IdentifyInterfacialNode_at_owned (model : Model) (part : Partition) (fuel : ℕ)
    (hpv : PartValid part) (g : Grid) (c : Int3) (hc : c ∈ interiorCoords part)
    (hgid : (g (idxOf part c)).gid ≠ 0) :
    (IdentifyInterfacialNode model part fuel g) (idxOf part c) =
      (if InterfacialState part g c.z c.y c.x ((g (idxOf part c)).gid) ≠ 0 then
        { g (idxOf part c) with
            lid := InterfacialState part g c.z c.y c.x ((g (idxOf part c)).gid),
            gst := GhostState part g c.z c.y c.x 0 }
      else { g (idxOf part c) with
            lid := InterfacialState part g c.z c.y c.x ((g (idxOf part c)).gid),
            gst := 0 }) := by
  obtain ⟨l1, l2, hsplit, hn1, hn2, hval, hpre⟩ :=
    foldl_at_mem _ (idxOf part) (iinStep_loc model part fuel) (interiorCoords part)
      (keyNodup_interior part hpv) c hc g
  rw [IdentifyInterfacialNode, hval]
  have hgf : ∀ idx, ((l1.foldl (iinStep model part fuel) g) idx).gid = (g idx).gid := fun idx =>
    foldl_pointwise (iinStep model part fuel) (fun a b => b.gid = a.gid)
      (fun _ => rfl) (fun _ _ _ h1 h2 => h2.trans h1) l1
      (fun g' c' idx' _ => iinStep_gid model part fuel g' c' idx') g idx
  have hgid' : ((l1.foldl (iinStep model part fuel) g) (idxOf part c)).gid ≠ 0 := by
    rw [hpre]
    exact hgid
  rw [iinStep_at_owned model part fuel _ c hgid']
  rw [hpre]
  have hIS : InterfacialState part (l1.foldl (iinStep model part fuel) g) c.z c.y c.x
      ((g (idxOf part c)).gid) = InterfacialState part g c.z c.y c.x ((g (idxOf part c)).gid) :=
    InterfacialState_congr part hgf c.z c.y c.x _
  have hGS : GhostState part (l1.foldl (iinStep model part fuel) g) c.z c.y c.x 0
      = GhostState part g c.z c.y c.x 0 :=
    GhostState_congr part hgf c.z c.y c.x 0
  rw [hIS, hGS]

end ArtraCFD

namespace ArtraCFD

/-! ## Bounding-box coordinates stay inside the valid interior range -/

theorem validNodeSpace_bounds (v nMin nMax : ℤ) (h : nMin ≤ nMax - 1) :
    nMin ≤ validNodeSpace v nMin nMax ∧ validNodeSpace v nMin nMax ≤ nMax - 1 :=
  ⟨le_max_left _ _, max_le h (min_le_right _ _)⟩

theorem mem_boxCoords_bounds (part : Partition) (poly : Polyhedron) (hpv : PartValid part)
    {c : Int3} (hc : c ∈ boxCoords part poly) :
    (0 ≤ c.x ∧ c.x < part.n.x) ∧ (0 ≤ c.y ∧ c.y < part.n.y) := by
  obtain ⟨h1, h2, h3, h4, h5, h6, h7, h8, h9, h10, h11, h12⟩ := hpv
  obtain ⟨hz, hy, hx⟩ := mem_tripleList.mp hc
  have hxr := mem_intRange.mp hx
  have hyr := mem_intRange.mp hy
  have hbx := validNodeSpace_bounds
    (nodeSpace poly.boxMin.x part.domainMin.x part.dd.x part.ng) part.nsMin.x part.nsMax.x
    (by omega)
  have hbx2 := validNodeSpace_bounds
    (nodeSpace poly.boxMax.x part.domainMin.x part.dd.x part.ng) part.nsMin.x part.nsMax.x
    (by omega)
  have hby := validNodeSpace_bounds
    (nodeSpace poly.boxMin.y part.domainMin.y part.dd.y part.ng) part.nsMin.y part.nsMax.y
    (by omega)
  have hby2 := validNodeSpace_bounds
    (nodeSpace poly.boxMax.y part.domainMin.y part.dd.y part.ng) part.nsMin.y part.nsMax.y
    (by omega)
  simp only [boxOf] at hxr hyr
  constructor
  · constructor
    · omega
    · omega
  · constructor
    · omega
    · omega

theorem keyNodup_box (part : Partition) (poly : Polyhedron) (hpv : PartValid part) :
    ((boxCoords part poly).map (idxOf part)).Nodup := by
  obtain ⟨h1, h2, h3, h4, h5, h6, h7, h8, h9, h10, h11, h12⟩ := hpv
  refine keyNodup_tripleList part _ _ _ (nodup_intRange _ _) (nodup_intRange _ _)
    (nodup_intRange _ _) ?_ ?_ h10 h11
  · intro a ha
    have har := mem_intRange.mp ha
    have hbx := validNodeSpace_bounds
      (nodeSpace poly.boxMin.x part.domainMin.x part.dd.x part.ng) part.nsMin.x part.nsMax.x
      (by omega)
    have hbx2 := validNodeSpace_bounds
      (nodeSpace poly.boxMax.x part.domainMin.x part.dd.x part.ng) part.nsMin.x part.nsMax.x
      (by omega)
    simp only [boxOf] at har
    omega
  · intro a ha
    have har := mem_intRange.mp ha
    have hby := validNodeSpace_bounds
      (nodeSpace poly.boxMin.y part.domainMin.y part.dd.y part.ng) part.nsMin.y part.nsMax.y
      (by omega)
    have hby2 := validNodeSpace_bounds
      (nodeSpace poly.boxMax.y part.domainMin.y part.dd.y part.ng) part.nsMin.y part.nsMax.y
      (by omega)
    simp only [boxOf] at har
    omega

/-! ## Claim C4: sphere ownership is the exact boundary-inclusive test -/

theorem claimNode_at_sphere (ext : Ext) (part : Partition) (nIdx : ℕ) (poly : Polyhedron)
    (g : Grid) (c : Int3) (hfn : poly.faceN = 0) (hun : (g (idxOf part c)).gid = 0) :
    (claimNode ext part nIdx poly g c) (idxOf part c) =
      if poly.r * poly.r ≥ dist2 poly.O (pointOf part c) then
        { g (idxOf part c) with gid := (nIdx : ℤ) + 1, fid := 0 }
      else g (idxOf part c) := by
  have hgz : ¬((g (idxOf part c)).gid ≠ 0) := by simpa using hun
  simp only [claimNode, if_neg hgz, if_pos hfn]
  rw [apply_ite (fun hh : Grid => hh (idxOf part c))]
  simp only [Function.update_same]

/-- C4.  During the ownership sweep of a non-stationary analytical sphere,
a node of the searched box that is still unowned when the sweep starts is
claimed exactly when `r² ≥ dist²` (the boundary-inclusive distance test),
in which case its geometry id becomes the sphere's 1-based id and its face
id is set to 0; otherwise the node is untouched.  In particular the node
ends up owned iff `r² ≥ dist²`. -/
theorem c4_sphere_ownership (ext : Ext) (part : Partition) (nIdx : ℕ) (poly : Polyhedron)
    (g : Grid) (c : Int3) (hpv : PartValid part) (hst : poly.state ≠ 1) (hfn : poly.faceN = 0)
    (hc : c ∈ boxCoords part poly) (hun : (g (idxOf part c)).gid = 0) :
    (sweepShape ext part nIdx poly g) (idxOf part c) =
      (if poly.r * poly.r ≥ dist2 poly.O (pointOf part c) then
        { g (idxOf part c) with gid := (nIdx : ℤ) + 1, fid := 0 }
      else g (idxOf part c)) ∧
    (((sweepShape ext part nIdx poly g) (idxOf part c)).gid ≠ 0 ↔
      poly.r * poly.r ≥ dist2 poly.O (pointOf part c)) := by
  have hmain : (sweepShape ext part nIdx poly g) (idxOf part c) =
      (if poly.r * poly.r ≥ dist2 poly.O (pointOf part c) then
        { g (idxOf part c) with gid := (nIdx : ℤ) + 1, fid := 0 }
      else g (idxOf part c)) := by
    unfold sweepShape
    rw [if_neg hst]
    obtain ⟨l1, l2, hsplit, hm1, hm2, hval, hpre⟩ :=
      foldl_at_mem _ (idxOf part) (claimNode_loc ext part nIdx poly) (boxCoords part poly)
        (keyNodup_box part poly hpv) c hc g
    rw [hval, claimNode_at_sphere ext part nIdx poly _ c hfn (by rw [hpre]; exact hun), hpre]
  refine ⟨hmain, ?_⟩
  rw [hmain]
  by_cases hd : poly.r * poly.r ≥ dist2 poly.O (pointOf part c)
  · rw [if_pos hd]
    simp only [hd, iff_true]
    intro hz
    omega
  · rw [if_neg hd]
    simp [hun, hd]

/-- Witness for C4 at a concrete input: the unit sphere claims the single
grid node at the origin (distance 0 ≤ radius 1), setting `fid = 0`. -/
theorem c4_sphere_ownership_witness :
    PartValid partUnit ∧ polyMovingSphere.state ≠ 1 ∧ polyMovingSphere.faceN = 0 ∧
    (⟨0, 0, 0⟩ : Int3) ∈ boxCoords partUnit polyMovingSphere ∧
    (gridZero (idxOf partUnit ⟨0, 0, 0⟩)).gid = 0 ∧
    ((sweepShape extTrivial partUnit 0 polyMovingSphere gridZero) (idxOf partUnit ⟨0, 0, 0⟩) =
      (if polyMovingSphere.r * polyMovingSphere.r ≥
          dist2 polyMovingSphere.O (pointOf partUnit ⟨0, 0, 0⟩) then
        { gridZero (idxOf partUnit ⟨0, 0, 0⟩) with gid := ((0 : ℕ) : ℤ) + 1, fid := 0 }
      else gridZero (idxOf partUnit ⟨0, 0, 0⟩)) ∧
    (((sweepShape extTrivial partUnit 0 polyMovingSphere gridZero)
        (idxOf partUnit ⟨0, 0, 0⟩)).gid ≠ 0 ↔
      polyMovingSphere.r * polyMovingSphere.r ≥
        dist2 polyMovingSphere.O (pointOf partUnit ⟨0, 0, 0⟩))) :=
  ⟨by decide, by decide, by decide,
   by norm_num [boxCoords, boxOf, tripleList, intRange, nodeSpace, validNodeSpace,
     partUnit, polyMovingSphere, mem_intRange],
   by decide,
   c4_sphere_ownership extTrivial partUnit 0 polyMovingSphere gridZero ⟨0, 0, 0⟩
     (by decide) (by decide) (by decide)
     (by norm_num [boxCoords, boxOf, tripleList, intRange, nodeSpace, validNodeSpace,
       partUnit, polyMovingSphere, mem_intRange])
     (by decide)⟩

end ArtraCFD

namespace ArtraCFD

/-! ## Claim C2: which neighbours decide the ghost layer -/

/-- C2, counterexample to the claim as frozen.  On `gridC2` the interior
node 1 is owned (`gid = 1`) and interfacial (`lid = 1`), and its nearest
valid same-owner neighbour lies in layer 1 (`ghostSpecSameOwner … = 1`),
so the claim predicts `ghostLayer = 1`; the code assigns `ghostLayer = 0`
because `GhostState` is invoked with geometry id 0 and looks for unowned
neighbours, of which there are none. -/
theorem c2_counterexample :
    ((ComputeGeometryDomain extTrivial modelTwoOne partLayers
        [polyStationarySphere, polyStationarySphere] polyStationarySphere 0 gridC2) 1).gid = 1 ∧
    ((ComputeGeometryDomain extTrivial modelTwoOne partLayers
        [polyStationarySphere, polyStationarySphere] polyStationarySphere 0 gridC2) 1).lid = 1 ∧
    ghostSpecSameOwner partLayers
      (ComputeGeometryDomain extTrivial modelTwoOne partLayers
        [polyStationarySphere, polyStationarySphere] polyStationarySphere 0 gridC2)
      ⟨1, 0, 0⟩ 1 = 1 ∧
    ((ComputeGeometryDomain extTrivial modelTwoOne partLayers
        [polyStationarySphere, polyStationarySphere] polyStationarySphere 0 gridC2) 1).gst = 0 := by
  refine ⟨by decide, by decide, by decide, by decide⟩

/-- C2, amended.  For every interior node that the classification leaves
owned and interfacial, the assigned ghost layer is exactly the layer of the
nearest valid unowned (`gid = 0`) neighbour on the distance-ordered offset
template — `ghostSpec` — and 0 when no such neighbour lies within a
layer. -/
theorem c2_ghost_layer_unowned (ext : Ext) (model : Model) (part : Partition)
    (geo : List Polyhedron) (defPoly : Polyhedron) (fuel : ℕ) (g : Grid) (c : Int3)
    (hpv : PartValid part) (hc : c ∈ interiorCoords part)
    (hgid : ((ComputeGeometryDomain ext model part geo defPoly fuel g) (idxOf part c)).gid ≠ 0)
    (hlid : ((ComputeGeometryDomain ext model part geo defPoly fuel g) (idxOf part c)).lid ≠ 0) :
    ((ComputeGeometryDomain ext model part geo defPoly fuel g) (idxOf part c)).gst =
      ghostSpec part (ComputeGeometryDomain ext model part geo defPoly fuel g) c := by
  unfold ComputeGeometryDomain at hgid hlid ⊢
  have hgidA : ((IdentifyGeometryNode ext part geo (InitializeGeometryDomain geo defPoly part g))
      (idxOf part c)).gid ≠ 0 := by
    rw [← IdentifyInterfacialNode_gid model part fuel]
    exact hgid
  rw [IdentifyInterfacialNode_at_owned model part fuel hpv _ c hc hgidA] at hlid ⊢
  have hIS : InterfacialState part
      (IdentifyGeometryNode ext part geo (InitializeGeometryDomain geo defPoly part g))
      c.z c.y c.x (((IdentifyGeometryNode ext part geo
        (InitializeGeometryDomain geo defPoly part g)) (idxOf part c)).gid) ≠ 0 := by
    intro h0
    rw [if_neg (by simpa using h0)] at hlid
    exact hlid h0
  rw [if_pos hIS] at hlid ⊢
  rw [GhostState_eq_ghostSpec]
  refine ghostSpec_congr part ?_ c
  intro idx
  exact (IdentifyInterfacialNode_gid model part fuel _ idx).symm

/-- Witness for C2's amended theorem at a concrete input. -/
theorem c2_ghost_layer_unowned_witness :
    PartValid partLayers ∧ (⟨1, 0, 0⟩ : Int3) ∈ interiorCoords partLayers ∧
    ((ComputeGeometryDomain extTrivial modelTwoOne partLayers
        [polyStationarySphere, polyStationarySphere] polyStationarySphere 0 gridC2)
        (idxOf partLayers ⟨1, 0, 0⟩)).gst =
      ghostSpec partLayers (ComputeGeometryDomain extTrivial modelTwoOne partLayers
        [polyStationarySphere, polyStationarySphere] polyStationarySphere 0 gridC2) ⟨1, 0, 0⟩ :=
  ⟨by decide, by decide,
   c2_ghost_layer_unowned extTrivial modelTwoOne partLayers
     [polyStationarySphere, polyStationarySphere] polyStationarySphere 0 gridC2 ⟨1, 0, 0⟩
     (by decide) (by decide) (by decide) (by decide)⟩

end ArtraCFD

namespace ArtraCFD

/-! ## Claim C10: invariants of the classified fields -/

theorem reconNewly_lid_gst (model : Model) (part : Partition) (fuel : ℕ) (g : Grid) (c : Int3) :
    (reconNewly model part g fuel c (idxOf part c)).lid = (g (idxOf part c)).lid ∧
    (reconNewly model part g fuel c (idxOf part c)).gst = (g (idxOf part c)).gst := by
  unfold reconNewly
  cases InverseDistanceWeighting model part g fuel TO c (pointOf part c) R NONE 0 with
  | none => exact ⟨rfl, rfl⟩
  | some pr =>
    obtain ⟨ws, Uo⟩ := pr
    refine ⟨?_, ?_⟩
    · simp only [Function.update_same]
    · simp only [Function.update_same]

theorem IdentifyInterfacialNode_at_unowned (model : Model) (part : Partition) (fuel : ℕ)
    (hpv : PartValid part) (g : Grid) (c : Int3) (hc : c ∈ interiorCoords part)
    (hgid : (g (idxOf part c)).gid = 0) :
    ((IdentifyInterfacialNode model part fuel g) (idxOf part c)).lid = (g (idxOf part c)).lid ∧
    ((IdentifyInterfacialNode model part fuel g) (idxOf part c)).gst = (g (idxOf part c)).gst := by
  obtain ⟨l1, l2, hsplit, hn1, hn2, hval, hpre⟩ :=
    foldl_at_mem _ (idxOf part) (iinStep_loc model part fuel) (interiorCoords part)
      (keyNodup_interior part hpv) c hc g
  rw [IdentifyInterfacialNode, hval]
  by_cases htr : (((l1.foldl (iinStep model part fuel) g) (idxOf part c)).fid ≠ NONE ∧
      ((l1.foldl (iinStep model part fuel) g) (idxOf part c)).gid = 0)
  · rw [iinStep_at_trigger model part fuel _ c htr]
    obtain ⟨ha, hb⟩ := reconNewly_lid_gst model part fuel (l1.foldl (iinStep model part fuel) g) c
    rw [ha, hb, hpre]
    exact ⟨rfl, rfl⟩
  · have hfid : ((l1.foldl (iinStep model part fuel) g) (idxOf part c)).fid = NONE := by
      by_contra hne
      exact htr ⟨hne, by rw [hpre]; exact hgid⟩
    rw [iinStep_at_skip model part fuel _ c hfid (by rw [hpre]; exact hgid), hpre]
    exact ⟨rfl, rfl⟩

theorem resetNode_gid_zero (geo : List Polyhedron) (defPoly : Polyhedron) (nd : Node)
    (h : (resetNode geo defPoly nd).gid = 0) :
    (resetNode geo defPoly nd).lid = 0 ∧ (resetNode geo defPoly nd).gst = 0 := by
  unfold resetNode at h ⊢
  by_cases h1 : nd.gid ≤ 0
  · simp only [if_pos h1]
    exact ⟨by trivial, by trivial⟩
  · simp only [if_neg h1] at h ⊢
    by_cases h2 : (geo.getD (nd.gid - 1).toNat defPoly).state = 1
    · simp only [if_pos h2] at h
      exact absurd h (by omega)
    · simp only [if_neg h2] at h ⊢
      by_cases h3 : 0 < nd.lid
      · simp only [if_pos h3]
        exact ⟨by trivial, by trivial⟩
      · simp only [if_neg h3] at h ⊢
        exact absurd h (by omega)

theorem interfacial_le_ghost (part : Partition) (h : Grid) (c : Int3) (ownGid : ℤ)
    (hown : ownGid ≠ 0) (hGS : GhostState part h c.z c.y c.x 0 ≠ 0) :
    InterfacialState part h c.z c.y c.x ownGid ≠ 0 ∧
    InterfacialState part h c.z c.y c.x ownGid ≤ GhostState part h c.z c.y c.x 0 := by
  rw [GhostState_eq_find] at hGS ⊢
  rw [InterfacialState_eq_find]
  cases hf : (List.range (part.pathSep.getD 0 0).toNat).find?
      (scanCond part h c.z c.y c.x 0 true) with
  | none => rw [hf] at hGS; simp at hGS
  | some m =>
    rw [hf] at hGS
    have hlm : layerOf part m ≠ 0 := by
      intro h0
      exact hGS (by simp [h0])
    have himp : ∀ x, scanCond part h c.z c.y c.x 0 true x = true →
        scanCond part h c.z c.y c.x ownGid false x = true := by
      intro x hx
      simp only [scanCond, decide_eq_true_eq, if_true, Bool.false_eq_true, if_false] at hx ⊢
      refine ⟨hx.1, ?_⟩
      rw [hx.2]
      exact fun hEq => hown hEq.symm
    obtain ⟨b, hb, hba⟩ := find?_mono_sorted (sorted_le_range _) himp hf
    rw [hb]
    obtain ⟨hbne, hble⟩ := layerOf_le_of_le part hba hlm
    refine ⟨by simpa using hbne, by simpa using hble⟩

/-- C10.  After `ComputeGeometryDomain`, every interior node's interfacial
layer and ghost layer lie in `[0, gl]`; a nonzero ghost layer forces a
nonzero interfacial layer; and (even without assuming the layer separators
nondecreasing, hence in particular under that assumption) a nonzero ghost
layer is at least the interfacial layer. -/
theorem c10_classification_invariants (ext : Ext) (model : Model) (part : Partition)
    (geo : List Polyhedron) (defPoly : Polyhedron) (fuel : ℕ) (g : Grid) (c : Int3)
    (hpv : PartValid part) (hc : c ∈ interiorCoords part) :
    (0 ≤ ((ComputeGeometryDomain ext model part geo defPoly fuel g) (idxOf part c)).lid ∧
      ((ComputeGeometryDomain ext model part geo defPoly fuel g) (idxOf part c)).lid ≤ part.gl) ∧
    (0 ≤ ((ComputeGeometryDomain ext model part geo defPoly fuel g) (idxOf part c)).gst ∧
      ((ComputeGeometryDomain ext model part geo defPoly fuel g) (idxOf part c)).gst ≤ part.gl) ∧
    (((ComputeGeometryDomain ext model part geo defPoly fuel g) (idxOf part c)).gst ≠ 0 →
      ((ComputeGeometryDomain ext model part geo defPoly fuel g) (idxOf part c)).lid ≠ 0) ∧
    (part.pathSep.Sorted (· ≤ ·) →
      ((ComputeGeometryDomain ext model part geo defPoly fuel g) (idxOf part c)).gst ≠ 0 →
      ((ComputeGeometryDomain ext model part geo defPoly fuel g) (idxOf part c)).lid ≤
        ((ComputeGeometryDomain ext model part geo defPoly fuel g) (idxOf part c)).gst) := by
  unfold ComputeGeometryDomain
  by_cases hgidA : ((IdentifyGeometryNode ext part geo (InitializeGeometryDomain geo defPoly part g))
      (idxOf part c)).gid = 0
  · obtain ⟨hl, hs⟩ := IdentifyInterfacialNode_at_unowned model part fuel hpv _ c hc hgidA
    have hres : ((IdentifyGeometryNode ext part geo (InitializeGeometryDomain geo defPoly part g))
        (idxOf part c)).lid = (InitializeGeometryDomain geo defPoly part g (idxOf part c)).lid ∧
        ((IdentifyGeometryNode ext part geo (InitializeGeometryDomain geo defPoly part g))
        (idxOf part c)).gst = (InitializeGeometryDomain geo defPoly part g (idxOf part c)).gst :=
      ⟨(IdentifyGeometryNode_OwnP ext part geo _ (idxOf part c)).1.1,
       (IdentifyGeometryNode_OwnP ext part geo _ (idxOf part c)).1.2.1⟩
    have hgidR : (InitializeGeometryDomain geo defPoly part g (idxOf part c)).gid = 0 := by
      by_contra hne
      have := (IdentifyGeometryNode_OwnP ext part geo
        (InitializeGeometryDomain geo defPoly part g) (idxOf part c)).2 hne
      rw [this] at hgidA
      exact hne hgidA
    rw [InitializeGeometryDomain_at geo defPoly part hpv g c hc] at hgidR hres
    obtain ⟨hrl, hrs⟩ := resetNode_gid_zero geo defPoly _ hgidR
    rw [hl, hs, hres.1, hres.2, hrl, hrs]
    refine ⟨⟨le_refl _, by positivity⟩, ⟨le_refl _, by positivity⟩, by simp, by simp⟩
  · rw [IdentifyInterfacialNode_at_owned model part fuel hpv _ c hc hgidA]
    set hA := IdentifyGeometryNode ext part geo (InitializeGeometryDomain geo defPoly part g)
      with hAdef
    obtain ⟨hIS0, hISgl⟩ := InterfacialState_bounds part hA c.z c.y c.x ((hA (idxOf part c)).gid)
    obtain ⟨hGS0, hGSgl⟩ := GhostState_bounds part hA c.z c.y c.x 0
    by_cases hIS : InterfacialState part hA c.z c.y c.x ((hA (idxOf part c)).gid) ≠ 0
    · rw [if_pos hIS]
      refine ⟨⟨hIS0, hISgl⟩, ⟨hGS0, hGSgl⟩, fun _ => hIS, fun _ hgs => ?_⟩
      exact (interfacial_le_ghost part hA c ((hA (idxOf part c)).gid) hgidA hgs).2
    · rw [if_neg hIS]
      refine ⟨⟨hIS0, hISgl⟩, ⟨le_refl _, by positivity⟩, by simp, by simp⟩

/-- Witness for C10 at a concrete input. -/
theorem c10_classification_invariants_witness :
    PartValid partLayers ∧ (⟨1, 0, 0⟩ : Int3) ∈ interiorCoords partLayers ∧
    ((0 ≤ ((ComputeGeometryDomain extTrivial modelTwoOne partLayers
        [polyStationarySphere, polyStationarySphere] polyStationarySphere 0 gridC2)
        (idxOf partLayers ⟨1, 0, 0⟩)).lid ∧
      ((ComputeGeometryDomain extTrivial modelTwoOne partLayers
        [polyStationarySphere, polyStationarySphere] polyStationarySphere 0 gridC2)
        (idxOf partLayers ⟨1, 0, 0⟩)).lid ≤ partLayers.gl) ∧
    (0 ≤ ((ComputeGeometryDomain extTrivial modelTwoOne partLayers
        [polyStationarySphere, polyStationarySphere] polyStationarySphere 0 gridC2)
        (idxOf partLayers ⟨1, 0, 0⟩)).gst ∧
      ((ComputeGeometryDomain extTrivial modelTwoOne partLayers
        [polyStationarySphere, polyStationarySphere] polyStationarySphere 0 gridC2)
        (idxOf partLayers ⟨1, 0, 0⟩)).gst ≤ partLayers.gl) ∧
    (((ComputeGeometryDomain extTrivial modelTwoOne partLayers
        [polyStationarySphere, polyStationarySphere] polyStationarySphere 0 gridC2)
        (idxOf partLayers ⟨1, 0, 0⟩)).gst ≠ 0 →
      ((ComputeGeometryDomain extTrivial modelTwoOne partLayers
        [polyStationarySphere, polyStationarySphere] polyStationarySphere 0 gridC2)
        (idxOf partLayers ⟨1, 0, 0⟩)).lid ≠ 0) ∧
    (partLayers.pathSep.Sorted (· ≤ ·) →
      ((ComputeGeometryDomain extTrivial modelTwoOne partLayers
        [polyStationarySphere, polyStationarySphere] polyStationarySphere 0 gridC2)
        (idxOf partLayers ⟨1, 0, 0⟩)).gst ≠ 0 →
      ((ComputeGeometryDomain extTrivial modelTwoOne partLayers
        [polyStationarySphere, polyStationarySphere] polyStationarySphere 0 gridC2)
        (idxOf partLayers ⟨1, 0, 0⟩)).lid ≤
        ((ComputeGeometryDomain extTrivial modelTwoOne partLayers
        [polyStationarySphere, polyStationarySphere] polyStationarySphere 0 gridC2)
        (idxOf partLayers ⟨1, 0, 0⟩)).gst)) :=
  ⟨by decide, by decide,
   c10_classification_invariants extTrivial modelTwoOne partLayers
     [polyStationarySphere, polyStationarySphere] polyStationarySphere 0 gridC2 ⟨1, 0, 0⟩
     (by decide) (by decide)⟩

end ArtraCFD

namespace ArtraCFD

/-! ## Claim C8: stationary bodies make reclassification idempotent -/

theorem resetNode_gid_stationary (geo : List Polyhedron) (defPoly : Polyhedron) (nd : Node)
    (h0 : 0 ≤ nd.gid)
    (hst : nd.gid ≠ 0 → (geo.getD (nd.gid - 1).toNat defPoly).state = 1) :
    (resetNode geo defPoly nd).gid = nd.gid := by
  unfold resetNode
  by_cases h1 : nd.gid ≤ 0
  · rw [if_pos h1]
    exact (le_antisymm h1 h0).symm
  · rw [if_neg h1]
    show (if (geo.getD (nd.gid - 1).toNat defPoly).state = 1 then
        ({nd with lid := 0, gst := 0} : Node)
      else if 0 < nd.lid then {nd with gid := 0, lid := 0, gst := 0} else nd).gid = nd.gid
    rw [if_pos (hst (fun h => h1 (le_of_eq h)))]

theorem resetNode_stationary (geo : List Polyhedron) (defPoly : Polyhedron) (nd : Node)
    (hown : 0 < nd.gid)
    (hst : (geo.getD (nd.gid - 1).toNat defPoly).state = 1) :
    resetNode geo defPoly nd = {nd with lid := 0, gst := 0} := by
  unfold resetNode
  rw [if_neg (not_le.mpr hown)]
  show (if (geo.getD (nd.gid - 1).toNat defPoly).state = 1 then
      ({nd with lid := 0, gst := 0} : Node)
    else if 0 < nd.lid then {nd with gid := 0, lid := 0, gst := 0} else nd)
    = {nd with lid := 0, gst := 0}
  rw [if_pos hst]

theorem node_eta_lid_gst (nd : Node) (hl : nd.lid = 0) (hg : nd.gst = 0) :
    ({nd with lid := 0, gst := 0} : Node) = nd := by
  cases nd
  simp_all

theorem InitializeGeometryDomain_gid (geo : List Polyhedron) (defPoly : Polyhedron)
    (part : Partition) (hpv : PartValid part) (g : Grid)
    (hinv : ∀ c ∈ interiorCoords part, 0 ≤ (g (idxOf part c)).gid ∧
      ((g (idxOf part c)).gid ≠ 0 →
        (geo.getD ((g (idxOf part c)).gid - 1).toNat defPoly).state = 1)) :
    ∀ idx, ((InitializeGeometryDomain geo defPoly part g) idx).gid = (g idx).gid := by
  intro idx
  by_cases hex : ∃ c ∈ interiorCoords part, idxOf part c = idx
  · obtain ⟨c, hc, hidx⟩ := hex
    subst hidx
    rw [InitializeGeometryDomain_at geo defPoly part hpv g c hc]
    exact resetNode_gid_stationary geo defPoly _ (hinv c hc).1 (hinv c hc).2
  · push_neg at hex
    rw [InitializeGeometryDomain_untouched geo defPoly part g idx hex]

/-- C8.  When every body is stationary, a repeated classification call is
the identity on owned non-interfacial interior nodes: the reset sweep keeps
all their fields (it only clears the already-zero interfacial markers), the
ownership sweep is skipped entirely for every stationary body, and the
interfacial/ghost reclassification reproduces `lid = gst = 0`, so the full
`ComputeGeometryDomain` call returns the node's record unchanged. -/
theorem c8_stationary_idempotent (ext : Ext) (model : Model) (part : Partition)
    (geo : List Polyhedron) (defPoly : Polyhedron) (fuel : ℕ) (g : Grid) (c : Int3)
    (hpv : PartValid part)
    (hst : ∀ p ∈ geo, p.state = 1)
    (hids : ∀ c' ∈ interiorCoords part, 0 ≤ (g (idxOf part c')).gid ∧
      ((g (idxOf part c')).gid ≠ 0 → ((g (idxOf part c')).gid - 1).toNat < geo.length))
    (hc : c ∈ interiorCoords part)
    (hown : 0 < (g (idxOf part c)).gid)
    (hlid : (g (idxOf part c)).lid = 0)
    (hgst : (g (idxOf part c)).gst = 0)
    (hIS : InterfacialState part g c.z c.y c.x ((g (idxOf part c)).gid) = 0) :
    IdentifyGeometryNode ext part geo (InitializeGeometryDomain geo defPoly part g)
        = InitializeGeometryDomain geo defPoly part g ∧
    (InitializeGeometryDomain geo defPoly part g) (idxOf part c) = g (idxOf part c) ∧
    (ComputeGeometryDomain ext model part geo defPoly fuel g) (idxOf part c)
        = g (idxOf part c) := by
  have hstD : ∀ c' ∈ interiorCoords part, 0 ≤ (g (idxOf part c')).gid ∧
      ((g (idxOf part c')).gid ≠ 0 →
        (geo.getD ((g (idxOf part c')).gid - 1).toNat defPoly).state = 1) := by
    intro c' hc'
    refine ⟨(hids c' hc').1, fun hne => ?_⟩
    have hlt := (hids c' hc').2 hne
    rw [List.getD_eq_getElem geo defPoly hlt]
    exact hst _ (List.getElem_mem _)
  have hIGN : IdentifyGeometryNode ext part geo (InitializeGeometryDomain geo defPoly part g)
      = InitializeGeometryDomain geo defPoly part g :=
    IdentifyGeometryNode_stationary ext part geo _ hst
  have hInitAt : (InitializeGeometryDomain geo defPoly part g) (idxOf part c)
      = g (idxOf part c) := by
    rw [InitializeGeometryDomain_at geo defPoly part hpv g c hc]
    rw [resetNode_stationary geo defPoly _ hown ((hstD c hc).2 (ne_of_gt hown))]
    exact node_eta_lid_gst _ hlid hgst
  refine ⟨hIGN, hInitAt, ?_⟩
  unfold ComputeGeometryDomain
  rw [hIGN]
  have hg1gid : ∀ idx, ((InitializeGeometryDomain geo defPoly part g) idx).gid = (g idx).gid :=
    InitializeGeometryDomain_gid geo defPoly part hpv g hstD
  have hg1own : ((InitializeGeometryDomain geo defPoly part g) (idxOf part c)).gid ≠ 0 := by
    rw [hInitAt]
    exact ne_of_gt hown
  rw [IdentifyInterfacialNode_at_owned model part fuel hpv _ c hc hg1own]
  have hIS1 : InterfacialState part (InitializeGeometryDomain geo defPoly part g) c.z c.y c.x
      (((InitializeGeometryDomain geo defPoly part g) (idxOf part c)).gid) = 0 := by
    rw [hInitAt, InterfacialState_congr part hg1gid c.z c.y c.x _]
    exact hIS
  rw [if_neg (not_ne_iff.mpr hIS1), hIS1, hInitAt]
  exact node_eta_lid_gst _ hlid hgst

theorem c8_stationary_idempotent_witness :
    (ComputeGeometryDomain extTrivial modelTwoOne partUnit [polyStationarySphere]
        polyMovingSphere 1 gridC8) (idxOf partUnit ⟨0, 0, 0⟩)
      = gridC8 (idxOf partUnit ⟨0, 0, 0⟩) :=
  (c8_stationary_idempotent extTrivial modelTwoOne partUnit [polyStationarySphere]
    polyMovingSphere 1 gridC8 ⟨0, 0, 0⟩ (by decide)
    (by intro p hp; rw [List.mem_singleton.mp hp]; rfl)
    (by decide) (by decide) (by decide) (by decide) (by decide) (by decide)).2.2

end ArtraCFD

namespace ArtraCFD

/-! ## Claim C3: the newly-exposed-node treatment -/

theorem idwQualifies_congr0 (part : Partition) {g1 g2 : Grid}
    (hgg : ∀ idx, (g1 idx).gid = (g2 idx).gid ∧ (g1 idx).fid = (g2 idx).fid ∧
      (g1 idx).U = (g2 idx).U)
    (typ : ℤ) (nc off : Int3) :
    idwQualifies part g1 typ 0 nc off = idwQualifies part g2 typ 0 nc off := by
  obtain ⟨h1, h2, h3⟩ :=
    hgg (indexNode (nc.z + off.z) (nc.y + off.y) (nc.x + off.x) part.n.y part.n.x)
  simp only [idwQualifies]
  rw [h1, h2]
  simp

theorem idwStep_congr0 (model : Model) (part : Partition) {g1 g2 : Grid}
    (hgg : ∀ idx, (g1 idx).gid = (g2 idx).gid ∧ (g1 idx).fid = (g2 idx).fid ∧
      (g1 idx).U = (g2 idx).U)
    (tn : ℕ) (nc : Int3) (p : Vec3) (typ : ℤ) (acc : ℕ × ℚ × List ℚ) (off : Int3) :
    idwStep model part g1 tn nc p typ 0 acc off = idwStep model part g2 tn nc p typ 0 acc off := by
  obtain ⟨h1, h2, h3⟩ :=
    hgg (indexNode (nc.z + off.z) (nc.y + off.y) (nc.x + off.x) part.n.y part.n.x)
  simp only [idwStep]
  rw [idwQualifies_congr0 part hgg typ nc off, h3]

theorem idwPass_congr0 (model : Model) (part : Partition) {g1 g2 : Grid}
    (hgg : ∀ idx, (g1 idx).gid = (g2 idx).gid ∧ (g1 idx).fid = (g2 idx).fid ∧
      (g1 idx).U = (g2 idx).U)
    (tn : ℕ) (nc : Int3) (p : Vec3) (typ : ℤ) (r : ℤ) (acc : ℕ × ℚ × List ℚ) :
    idwPass model part g1 tn nc p typ 0 r acc = idwPass model part g2 tn nc p typ 0 r acc := by
  have hfold : ∀ (offs : List Int3) (acc0 : ℕ × ℚ × List ℚ),
      offs.foldl (idwStep model part g1 tn nc p typ 0) acc0
        = offs.foldl (idwStep model part g2 tn nc p typ 0) acc0 := by
    intro offs
    induction offs with
    | nil => intro acc0; rfl
    | cons o t ih =>
      intro acc0
      rw [List.foldl_cons, List.foldl_cons, idwStep_congr0 model part hgg tn nc p typ acc0 o, ih]
  exact hfold (cubeOffsets r) acc

theorem idwGo_congr0 (model : Model) (part : Partition) {g1 g2 : Grid}
    (hgg : ∀ idx, (g1 idx).gid = (g2 idx).gid ∧ (g1 idx).fid = (g2 idx).fid ∧
      (g1 idx).U = (g2 idx).U)
    (tn : ℕ) (nc : Int3) (p : Vec3) (typ : ℤ) :
    ∀ (fuel : ℕ) (r : ℤ) (acc : ℕ × ℚ × List ℚ),
      idwGo model part g1 tn nc p typ 0 fuel r acc = idwGo model part g2 tn nc p typ 0 fuel r acc := by
  intro fuel
  induction fuel with
  | zero => intro r acc; rfl
  | succ m ih =>
    intro r acc
    have hu1 : idwGo model part g1 tn nc p typ 0 (m + 1) r acc
        = if acc.1 ≠ 0 then some (acc.2.1, acc.2.2)
          else idwGo model part g1 tn nc p typ 0 m (r + 1)
            (idwPass model part g1 tn nc p typ 0 r acc) := rfl
    have hu2 : idwGo model part g2 tn nc p typ 0 (m + 1) r acc
        = if acc.1 ≠ 0 then some (acc.2.1, acc.2.2)
          else idwGo model part g2 tn nc p typ 0 m (r + 1)
            (idwPass model part g2 tn nc p typ 0 r acc) := rfl
    rw [hu1, hu2]
    by_cases ha : acc.1 ≠ 0
    · rw [if_pos ha, if_pos ha]
    · rw [if_neg ha, if_neg ha, idwPass_congr0 model part hgg tn nc p typ r acc, ih]

theorem InverseDistanceWeighting_congr0 (model : Model) (part : Partition) {g1 g2 : Grid}
    (hgg : ∀ idx, (g1 idx).gid = (g2 idx).gid ∧ (g1 idx).fid = (g2 idx).fid ∧
      (g1 idx).U = (g2 idx).U)
    (fuel tn : ℕ) (nc : Int3) (p : Vec3) (h typ : ℤ) :
    InverseDistanceWeighting model part g1 fuel tn nc p h typ 0
      = InverseDistanceWeighting model part g2 fuel tn nc p h typ 0 :=
  idwGo_congr0 model part hgg tn nc p typ fuel h _

theorem reconNewly_congr (model : Model) (part : Partition) (fuel : ℕ) {g1 g2 : Grid} (c : Int3)
    (hgg : ∀ idx, (g1 idx).gid = (g2 idx).gid ∧ (g1 idx).fid = (g2 idx).fid ∧
      (g1 idx).U = (g2 idx).U)
    (hat : g1 (idxOf part c) = g2 (idxOf part c)) :
    reconNewly model part g1 fuel c (idxOf part c) = reconNewly model part g2 fuel c (idxOf part c) := by
  unfold reconNewly
  rw [InverseDistanceWeighting_congr0 model part hgg fuel TO c (pointOf part c) R NONE]
  cases InverseDistanceWeighting model part g2 fuel TO c (pointOf part c) R NONE 0 with
  | none => exact hat
  | some pr =>
    obtain ⟨ws, Uo⟩ := pr
    simp only [Function.update_same]
    rw [hat]

theorem iinStep_fields (model : Model) (part : Partition) (fuel : ℕ) (g : Grid) (c : Int3)
    (hnt : ¬((g (idxOf part c)).fid ≠ NONE ∧ (g (idxOf part c)).gid = 0)) :
    ∀ idx, ((iinStep model part fuel g c) idx).gid = (g idx).gid ∧
      ((iinStep model part fuel g c) idx).fid = (g idx).fid ∧
      ((iinStep model part fuel g c) idx).U = (g idx).U := by
  intro idx
  by_cases hk : idx = idxOf part c
  · rw [hk]
    by_cases hg0 : (g (idxOf part c)).gid = 0
    · have hfid : (g (idxOf part c)).fid = NONE := by
        by_contra hne
        exact hnt ⟨hne, hg0⟩
      rw [iinStep_at_skip model part fuel g c hfid hg0]
      exact ⟨rfl, rfl, rfl⟩
    · rw [iinStep_at_owned model part fuel g c hg0]
      by_cases hIS : InterfacialState part g c.z c.y c.x ((g (idxOf part c)).gid) ≠ 0
      · rw [if_pos hIS]
        exact ⟨rfl, rfl, rfl⟩
      · rw [if_neg hIS]
        exact ⟨rfl, rfl, rfl⟩
  · rw [iinStep_loc model part fuel g c idx hk]
    exact ⟨rfl, rfl, rfl⟩

theorem iin_prefix_preserves (model : Model) (part : Partition) (fuel : ℕ) :
    ∀ (cs : List Int3) (g : Grid),
      (∀ c ∈ cs, ¬((g (idxOf part c)).fid ≠ NONE ∧ (g (idxOf part c)).gid = 0)) →
      ∀ idx, ((cs.foldl (iinStep model part fuel) g) idx).gid = (g idx).gid ∧
        ((cs.foldl (iinStep model part fuel) g) idx).fid = (g idx).fid ∧
        ((cs.foldl (iinStep model part fuel) g) idx).U = (g idx).U := by
  intro cs
  induction cs with
  | nil => intro g _ idx; exact ⟨rfl, rfl, rfl⟩
  | cons c t ih =>
    intro g hnt idx
    rw [List.foldl_cons]
    have hstep := iinStep_fields model part fuel g c (hnt c (List.mem_cons_self _ _))
    have hnt' : ∀ c' ∈ t, ¬(((iinStep model part fuel g c) (idxOf part c')).fid ≠ NONE ∧
        ((iinStep model part fuel g c) (idxOf part c')).gid = 0) := by
      intro c' hc' hcon
      obtain ⟨hg', hf', -⟩ := hstep (idxOf part c')
      exact hnt c' (List.mem_cons_of_mem _ hc') ⟨hf' ▸ hcon.1, hg' ▸ hcon.2⟩
    obtain ⟨ha, hb, hc2⟩ := ih (iinStep model part fuel g c) hnt' idx
    obtain ⟨hd, he, hf⟩ := hstep idx
    exact ⟨ha.trans hd, hb.trans he, hc2.trans hf⟩

/-- C3, counterexample to the claim as frozen.  On `partLine` with
`gridC3`, interior node 2 satisfies the claim's trigger (`fid = NONE` and
`gid = 0`) yet the interfacial/ghost phase leaves it completely untouched,
while interior node 1 has a face id *different* from the sentinel (and
`gid = 0`) and is the node the phase actually reconstructs, clearing its
face id to the sentinel: the code's newly-exposed trigger is
`fid ≠ NONE ∧ gid = 0`, not `fid = NONE ∧ gid = 0`. -/
theorem c3_counterexample :
    ((gridC3 2).fid = NONE ∧ (gridC3 2).gid = 0 ∧
      (IdentifyInterfacialNode modelTwoOne partLine 2 gridC3) 2 = gridC3 2) ∧
    ((gridC3 1).fid ≠ NONE ∧ (gridC3 1).gid = 0 ∧
      ((IdentifyInterfacialNode modelTwoOne partLine 2 gridC3) 1).fid = NONE) :=
  ⟨⟨by decide, by decide, by decide⟩, ⟨by decide, by decide, by decide⟩⟩

/-- C3, amended.  The interfacial/ghost phase treats as newly exposed, and
immediately reconstructs, exactly those interior nodes whose face id
*differs* from the `NONE` sentinel while their geometry id is 0: provided
no other interior node triggers, such a node gets the inverse-distance
estimate seeded from normal donors (`gid = 0`, `fid = NONE`) of the
original grid, normalized, density derived from pressure and temperature by
the ideal-gas relation, stored in conservative form at the current time
level, and its face id cleared to the sentinel; an unowned node whose face
id already equals the sentinel is left untouched. -/
theorem c3_newly_exposed (model : Model) (part : Partition) (fuel : ℕ)
    (hpv : PartValid part) (g : Grid) (c : Int3) (hc : c ∈ interiorCoords part)
    (huniq : ∀ c' ∈ interiorCoords part, c' ≠ c →
      ¬((g (idxOf part c')).fid ≠ NONE ∧ (g (idxOf part c')).gid = 0)) :
    ((g (idxOf part c)).fid ≠ NONE ∧ (g (idxOf part c)).gid = 0 →
      (IdentifyInterfacialNode model part fuel g) (idxOf part c)
        = match InverseDistanceWeighting model part g fuel TO c (pointOf part c) R NONE 0 with
          | none => g (idxOf part c)
          | some (weightSum, Uo0) =>
            { g (idxOf part c) with
              U := (g (idxOf part c)).U.set TO (conservativeByPrimitive model.gamma
                ((normalizeVec weightSum Uo0).set 0
                  ((normalizeVec weightSum Uo0).getD 4 0
                    / ((normalizeVec weightSum Uo0).getD 5 0 * model.gasR)))),
              fid := NONE }) ∧
    (¬((g (idxOf part c)).fid ≠ NONE ∧ (g (idxOf part c)).gid = 0) →
      (g (idxOf part c)).gid = 0 →
      (IdentifyInterfacialNode model part fuel g) (idxOf part c) = g (idxOf part c)) := by
  refine ⟨?_, ?_⟩
  · intro htr
    obtain ⟨l1, l2, hsplit, hn1, hn2, hval, hpre⟩ :=
      foldl_at_mem _ (idxOf part) (iinStep_loc model part fuel) (interiorCoords part)
        (keyNodup_interior part hpv) c hc g
    have htr' : ((l1.foldl (iinStep model part fuel) g) (idxOf part c)).fid ≠ NONE ∧
        ((l1.foldl (iinStep model part fuel) g) (idxOf part c)).gid = 0 := by
      rw [hpre]
      exact htr
    rw [IdentifyInterfacialNode, hval, iinStep_at_trigger model part fuel _ c htr']
    have hnt : ∀ c' ∈ l1, ¬((g (idxOf part c')).fid ≠ NONE ∧ (g (idxOf part c')).gid = 0) := by
      intro c' hc1
      refine huniq c' ?_ ?_
      · rw [hsplit]
        exact List.mem_append_left _ hc1
      · rintro rfl
        exact hn1 hc1
    have hgg := iin_prefix_preserves model part fuel l1 g hnt
    rw [reconNewly_congr model part fuel c hgg hpre]
    unfold reconNewly
    cases InverseDistanceWeighting model part g fuel TO c (pointOf part c) R NONE 0 with
    | none => rfl
    | some pr =>
      obtain ⟨ws, Uo⟩ := pr
      simp only [Function.update_same]
  · intro hntr hg0
    obtain ⟨l1, l2, hsplit, hn1, hn2, hval, hpre⟩ :=
      foldl_at_mem _ (idxOf part) (iinStep_loc model part fuel) (interiorCoords part)
        (keyNodup_interior part hpv) c hc g
    have hfid : (g (idxOf part c)).fid = NONE := by
      by_contra hne
      exact hntr ⟨hne, hg0⟩
    rw [IdentifyInterfacialNode, hval,
      iinStep_at_skip model part fuel _ c (by rw [hpre]; exact hfid) (by rw [hpre]; exact hg0),
      hpre]

theorem c3_newly_exposed_witness :
    ((IdentifyInterfacialNode modelTwoOne partLine 2 gridC3) (idxOf partLine ⟨1, 0, 0⟩)).fid
      = NONE := by
  have h := (c3_newly_exposed modelTwoOne partLine 2 (by decide) gridC3 ⟨1, 0, 0⟩ (by decide)
    (by decide)).1 (by decide)
  rw [h]
  decide

end ArtraCFD

namespace ArtraCFD

/-! ## Claim C9: exclusive, first-claim-wins ownership -/

theorem fst_lt_of_mem_enumFrom {α : Type} :
    ∀ {l : List α} {n : ℕ} {p : ℕ × α}, p ∈ l.enumFrom n → p.1 < n + l.length := by
  intro l
  induction l with
  | nil => intro n p hp; simp [List.enumFrom] at hp
  | cons a t ih =>
    intro n p hp
    rw [List.enumFrom_cons] at hp
    rcases List.mem_cons.mp hp with rfl | hmem
    · simp
    · have := ih hmem
      simp only [List.length_cons]
      omega

theorem fst_lt_of_mem_enum {α : Type} {l : List α} {p : ℕ × α} (hp : p ∈ l.enum) :
    p.1 < l.length := by
  have := fst_lt_of_mem_enumFrom hp
  simpa using this

theorem claimNode_gid_cases (ext : Ext) (part : Partition) (nIdx : ℕ) (poly : Polyhedron)
    (g : Grid) (c : Int3) (idx : ℤ) :
    ((claimNode ext part nIdx poly g c) idx).gid = (g idx).gid ∨
    ((claimNode ext part nIdx poly g c) idx).gid = (nIdx : ℤ) + 1 := by
  by_cases hk : idx = idxOf part c
  · rw [hk]
    simp only [claimNode]
    split
    · exact Or.inl rfl
    · split
      · rw [apply_ite (fun hh : Grid => hh (idxOf part c))]
        simp only [Function.update_same]
        split
        · exact Or.inr rfl
        · exact Or.inl rfl
      · rw [apply_ite (fun hh : Grid => hh (idxOf part c))]
        simp only [Function.update_same]
        split
        · exact Or.inr rfl
        · exact Or.inl rfl
  · rw [claimNode_loc ext part nIdx poly g c idx hk]
    exact Or.inl rfl

theorem sweepShape_gid_cases (ext : Ext) (part : Partition) (nIdx : ℕ) (poly : Polyhedron)
    (g : Grid) (idx : ℤ) :
    ((sweepShape ext part nIdx poly g) idx).gid = (g idx).gid ∨
    ((sweepShape ext part nIdx poly g) idx).gid = (nIdx : ℤ) + 1 := by
  unfold sweepShape
  split
  · exact Or.inl rfl
  · exact foldl_pointwise (claimNode ext part nIdx poly)
      (fun a b => b.gid = a.gid ∨ b.gid = (nIdx : ℤ) + 1)
      (fun nd => Or.inl rfl)
      (fun a b c2 h1 h2 => by
        rcases h2 with h2 | h2
        · rcases h1 with h1 | h1
          · exact Or.inl (h2.trans h1)
          · exact Or.inr (h2.trans h1)
        · exact Or.inr h2)
      (boxCoords part poly)
      (fun g' c' idx' _ => claimNode_gid_cases ext part nIdx poly g' c' idx') g idx

theorem claimNode_gid_at (ext : Ext) (part : Partition) (nIdx : ℕ) (poly : Polyhedron)
    (g : Grid) (c : Int3) :
    ((claimNode ext part nIdx poly g c) (idxOf part c)).gid =
      if (g (idxOf part c)).gid = 0 ∧ insideShape ext part poly c = true
      then (nIdx : ℤ) + 1 else (g (idxOf part c)).gid := by
  by_cases h0 : (g (idxOf part c)).gid = 0
  · have hgz : ¬((g (idxOf part c)).gid ≠ 0) := by simpa using h0
    simp only [claimNode, if_neg hgz]
    rw [if_congr (and_iff_right h0) rfl rfl]
    by_cases hfn : poly.faceN = 0
    · simp only [insideShape, if_pos hfn]
      rw [apply_ite (fun hh : Grid => hh (idxOf part c))]
      simp only [Function.update_same]
      by_cases hd : poly.r * poly.r ≥ dist2 poly.O (pointOf part c)
      · rw [if_pos hd, if_pos (by simpa using hd)]
      · rw [if_neg hd, if_neg (by simpa using hd)]
    · simp only [insideShape, if_neg hfn]
      rw [apply_ite (fun hh : Grid => hh (idxOf part c))]
      simp only [Function.update_same]
      by_cases hres : (ext.pointInPolyhedron (pointOf part c) poly).1 = true
      · rw [if_pos hres, if_pos hres]
      · rw [if_neg hres, if_neg hres]
  · rw [if_neg (by rintro ⟨h1, -⟩; exact h0 h1)]
    simp only [claimNode, if_pos h0]

theorem sweepShape_gid_at (ext : Ext) (part : Partition) (nIdx : ℕ) (poly : Polyhedron)
    (hpv : PartValid part) (g : Grid) (c : Int3)
    (hbx : 0 ≤ c.x ∧ c.x < part.n.x) (hby : 0 ≤ c.y ∧ c.y < part.n.y) :
    ((sweepShape ext part nIdx poly g) (idxOf part c)).gid =
      if poly.state ≠ 1 ∧ (g (idxOf part c)).gid = 0 ∧ claimsNode ext part poly c = true
      then (nIdx : ℤ) + 1 else (g (idxOf part c)).gid := by
  unfold sweepShape
  by_cases hst : poly.state = 1
  · rw [if_pos hst, if_neg (by rintro ⟨h1, -⟩; exact h1 hst)]
  · rw [if_neg hst]
    by_cases hcb : c ∈ boxCoords part poly
    · obtain ⟨l1, l2, hsplit, hm1, hm2, hval, hpre⟩ :=
        foldl_at_mem _ (idxOf part) (claimNode_loc ext part nIdx poly) (boxCoords part poly)
          (keyNodup_box part poly hpv) c hcb g
      rw [hval, claimNode_gid_at, hpre]
      refine if_congr ⟨fun h => ⟨hst, h.1, ?_⟩, fun h => ⟨h.2.1, ?_⟩⟩ rfl rfl
      · simp [claimsNode, hcb, h.2]
      · have hcl := h.2.2
        simp only [claimsNode, Bool.and_eq_true] at hcl
        exact hcl.2
    · have hne : ∀ c' ∈ boxCoords part poly, idxOf part c' ≠ idxOf part c := by
        intro c' hc' heq
        obtain ⟨hbx', hby'⟩ := mem_boxCoords_bounds part poly hpv hc'
        obtain ⟨h1, h2, h3, h4, h5, h6, h7, h8, h9, h10, h11, h12⟩ := hpv
        have hcc : c' = c := indexNode_inj h10 h11 hbx'.1 hbx'.2 hby'.1 hby'.2
          hbx.1 hbx.2 hby.1 hby.2 heq
        exact hcb (hcc ▸ hc')
      rw [foldl_untouched _ (idxOf part) (claimNode_loc ext part nIdx poly)
        (boxCoords part poly) g (idxOf part c) hne]
      rw [if_neg (by rintro ⟨-, -, hcl⟩; simp [claimsNode, hcb] at hcl)]

theorem ign_fold_gid (ext : Ext) (part : Partition) (hpv : PartValid part) (c : Int3)
    (hbx : 0 ≤ c.x ∧ c.x < part.n.x) (hby : 0 ≤ c.y ∧ c.y < part.n.y) :
    ∀ (l : List (ℕ × Polyhedron)) (g : Grid), (g (idxOf part c)).gid = 0 →
      ((l.foldl (fun g1 np => sweepShape ext part np.1 np.2 g1) g) (idxOf part c)).gid
        = match l.find? (fun np => decide (np.2.state ≠ 1) && claimsNode ext part np.2 c) with
          | none => 0
          | some np => (np.1 : ℤ) + 1 := by
  intro l
  induction l with
  | nil => intro g hg; exact hg
  | cons np t ih =>
    intro g hg
    rw [List.foldl_cons]
    by_cases hp : (decide (np.2.state ≠ 1) && claimsNode ext part np.2 c) = true
    · have hfind : List.find? (fun np2 => decide (np2.2.state ≠ 1) && claimsNode ext part np2.2 c)
          (np :: t) = some np := by
        simp only [List.find?_cons, hp]
      rw [hfind]
      have hp' : np.2.state ≠ 1 ∧ claimsNode ext part np.2 c = true := by
        simpa [Bool.and_eq_true, decide_eq_true_eq] using hp
      have hgid : ((sweepShape ext part np.1 np.2 g) (idxOf part c)).gid = (np.1 : ℤ) + 1 := by
        rw [sweepShape_gid_at ext part np.1 np.2 hpv g c hbx hby, if_pos ⟨hp'.1, hg, hp'.2⟩]
      have hkeep := foldl_pointwise (fun g1 np' => sweepShape ext part np'.1 np'.2 g1) OwnP
        OwnP_refl OwnP_trans t
        (fun g' np' idx' _ => sweepShape_OwnP ext part np'.1 np'.2 g' idx')
        (sweepShape ext part np.1 np.2 g) (idxOf part c)
      have hne0 : ((sweepShape ext part np.1 np.2 g) (idxOf part c)).gid ≠ 0 := by
        rw [hgid]
        omega
      rw [hkeep.2 hne0, hgid]
    · have hfind : List.find? (fun np2 => decide (np2.2.state ≠ 1) && claimsNode ext part np2.2 c)
          (np :: t)
          = List.find? (fun np2 => decide (np2.2.state ≠ 1) && claimsNode ext part np2.2 c) t := by
        simp only [List.find?_cons, Bool.eq_false_iff.mpr hp]
      rw [hfind]
      have hgid : ((sweepShape ext part np.1 np.2 g) (idxOf part c)).gid = 0 := by
        rw [sweepShape_gid_at ext part np.1 np.2 hpv g c hbx hby]
        rw [if_neg (by
          rintro ⟨hs, -, hcl⟩
          exact hp (by simp only [Bool.and_eq_true, decide_eq_true_eq]; exact ⟨hs, hcl⟩))]
        exact hg
      exact ih (sweepShape ext part np.1 np.2 g) hgid

/-- C9, counterexample to the claim as frozen.  On the single-node grid,
the stationary unit sphere (shape 1, the lowest-indexed shape) contains the
node — the boundary-inclusive distance test holds — and the node starts
unowned, yet after the ownership phase over `[polyStationarySphere,
polyMovingSphere]` the node is owned by shape 2: the sweep skips stationary
bodies, so the lowest-indexed *containing* shape does not own the node. -/
theorem c9_counterexample :
    polyStationarySphere.r * polyStationarySphere.r
        ≥ dist2 polyStationarySphere.O (pointOf partUnit ⟨0, 0, 0⟩) ∧
    (gridZero (idxOf partUnit ⟨0, 0, 0⟩)).gid = 0 ∧
    ((IdentifyGeometryNode extTrivial partUnit [polyStationarySphere, polyMovingSphere]
        gridZero) (idxOf partUnit ⟨0, 0, 0⟩)).gid = 2 := by
  refine ⟨by norm_num [dist2, pointOf, pointSpace, partUnit, polyStationarySphere], by decide, ?_⟩
  norm_num [IdentifyGeometryNode, sweepShape, claimNode, boxCoords, boxOf, tripleList, intRange,
    validNodeSpace, nodeSpace, pointOf, pointSpace, dist2, idxOf, indexNode, List.enum,
    polyStationarySphere, polyMovingSphere, partUnit, gridZero, nodeZero, List.foldl,
    Function.update]

/-- C9, amended.  Ownership is exclusive and first-claim-wins among the
*non-stationary* bodies: geometry ids stay in `[0, #shapes]` (each nonzero
id names exactly one shape), a node owned before the phase is never
re-tested or re-claimed (its record is returned unchanged), and a node that
starts unowned ends with the 1-based id of the lowest-indexed
non-stationary shape whose clamped search box contains it and whose
point-in-shape test accepts it (0 when there is no such shape) — stationary
shapes are skipped, so the lowest-indexed *containing* shape does not in
general own the node. -/
theorem c9_first_nonstationary_claim (ext : Ext) (part : Partition) (geo : List Polyhedron)
    (g : Grid) (c : Int3) (hpv : PartValid part)
    (hbx : 0 ≤ c.x ∧ c.x < part.n.x) (hby : 0 ≤ c.y ∧ c.y < part.n.y) :
    ((∀ idx, 0 ≤ (g idx).gid ∧ (g idx).gid ≤ (geo.length : ℤ)) →
      ∀ idx, 0 ≤ ((IdentifyGeometryNode ext part geo g) idx).gid ∧
        ((IdentifyGeometryNode ext part geo g) idx).gid ≤ (geo.length : ℤ)) ∧
    (∀ idx, (g idx).gid ≠ 0 → (IdentifyGeometryNode ext part geo g) idx = g idx) ∧
    ((g (idxOf part c)).gid = 0 →
      ((IdentifyGeometryNode ext part geo g) (idxOf part c)).gid
        = firstClaim ext part geo c) := by
  refine ⟨?_, ?_, ?_⟩
  · intro hrange idx
    have hstep : ∀ (g' : Grid) (np : ℕ × Polyhedron) (idx' : ℤ), np ∈ geo.enum →
        ((0 ≤ (g' idx').gid ∧ (g' idx').gid ≤ (geo.length : ℤ)) →
          (0 ≤ ((sweepShape ext part np.1 np.2 g') idx').gid ∧
            ((sweepShape ext part np.1 np.2 g') idx').gid ≤ (geo.length : ℤ))) := by
      intro g' np idx' hnp h
      rcases sweepShape_gid_cases ext part np.1 np.2 g' idx' with hc1 | hc1
      · rw [hc1]
        exact h
      · rw [hc1]
        have hlt := fst_lt_of_mem_enum hnp
        constructor
        · omega
        · omega
    unfold IdentifyGeometryNode
    exact foldl_pointwise (fun g1 np => sweepShape ext part np.1 np.2 g1)
      (fun a b => (0 ≤ a.gid ∧ a.gid ≤ (geo.length : ℤ)) →
        (0 ≤ b.gid ∧ b.gid ≤ (geo.length : ℤ)))
      (fun nd h => h) (fun a b c2 h1 h2 h3 => h2 (h1 h3)) geo.enum hstep g idx (hrange idx)
  · intro idx h
    exact (IdentifyGeometryNode_OwnP ext part geo g idx).2 h
  · intro hg0
    unfold IdentifyGeometryNode firstClaim
    exact ign_fold_gid ext part hpv c hbx hby geo.enum g hg0

theorem c9_first_nonstationary_claim_witness :
    ((IdentifyGeometryNode extTrivial partUnit [polyStationarySphere, polyMovingSphere]
        gridZero) (idxOf partUnit ⟨0, 0, 0⟩)).gid
      = firstClaim extTrivial partUnit [polyStationarySphere, polyMovingSphere] ⟨0, 0, 0⟩ :=
  (c9_first_nonstationary_claim extTrivial partUnit [polyStationarySphere, polyMovingSphere]
    gridZero ⟨0, 0, 0⟩ (by decide) (by decide) (by decide)).2.2 (by decide)

end ArtraCFD
